import Mathlib

/-!
# Verification of the link/callback registration and resolution system

A shallow embedding of `panel/links.py`: the `Callback`/`Link` registry
(registration, deduplication, unregistration) and the resolution pass
(`_process_callbacks` together with the `CallbackGenerator` family) that
emits JS callbacks onto resolved bokeh models.

Conventions of the embedding:
* Python objects are identified by natural-number identities; `PyObj` is a
  tagged union over the object kinds the code distinguishes via
  `isinstance` checks.  Structural equality of `PyObj` models Python
  identity (`is`): distinct live objects always carry distinct ids.
* Python dicts are association lists without duplicate keys; insertion
  updates in place or appends, matching dict semantics.  Python dict
  equality (`==`) is key-lookup equality, modelled by `dictEqB`.
* Exceptions are modelled with `Except Err`; a function that can both
  raise and mutate state returns the state alongside the result, so that
  mutations performed before a raise persist (Python semantics).
* Weak references are assumed live (garbage collection is not modelled).
-/

/-- Python exception kinds raised by the code under verification.
`configurationError` stands for the `ValueError` raised at construction
time and `resolutionError` for the `ValueError` raised during the
resolution pass, following the spec's names for the two failure sites. -/
inductive Err where
  | configurationError
  | resolutionError
  | attributeError
  | typeError
  | keyError
  | nameError
deriving DecidableEq, Repr

/-- The kinds of Python objects that `links.py` distinguishes by
`isinstance`/duck-typing: panel `Viewable`s, `HoloViews` panes (which are
also Viewables), bokeh `Model`s, holoviews bokeh element plots, other
`param.Parameterized` objects, and plain literal values. -/
inductive PyObj where
  | viewable (vid : Nat)
  | hvPane (vid : Nat)
  | bkModel (mid : Nat)
  | hvPlot (pid : Nat)
  | paramObj (pid : Nat)
  | lit (n : Nat)
deriving DecidableEq, Repr

/-- `isinstance(obj, Viewable)` — HoloViews panes are Viewables. -/
def PyObj.isViewable : PyObj → Bool
  | .viewable _ => true
  | .hvPane _ => true
  | _ => false

/-- `isinstance(obj, param.Parameterized)`. -/
def PyObj.isParameterized : PyObj → Bool
  | .viewable _ => true
  | .hvPane _ => true
  | .hvPlot _ => true
  | .paramObj _ => true
  | _ => false

/-- A registered `Callback`/`Link` instance.  The concrete Python class is
encoded by `cbType` together with its class attributes `_requires_target`
(`requiresTarget`) and whether the class defines a `target` property
(`hasTargetAttr`: true for the `Link` family, false for the base
`Callback`, whose constructor discards the `target` argument).
`extraParams` holds any further declared parameters of subclasses. -/
structure CBInst where
  instId : Nat
  cbType : Nat
  requiresTarget : Bool
  hasTargetAttr : Bool
  source : PyObj
  target : Option PyObj
  args : List (String × PyObj)
  code : Option (List (String × String))
  properties : List (String × String)
  extraParams : List (String × Nat)
deriving DecidableEq, Repr

/-- Reading `obj.target`: the `Link` family has the property, the base
`Callback` class does not and raises `AttributeError`. -/
def getTarget (c : CBInst) : Except Err (Option PyObj) :=
  if c.hasTargetAttr then .ok c.target else .error .attributeError

/-- `getattr(link, 'target', None)`. -/
def getTargetD (c : CBInst) : Option PyObj :=
  if c.hasTargetAttr then c.target else none

/-- `type(link) is type(self)`: the concrete class is encoded by `cbType`
plus its class attributes. -/
def sameType (a b : CBInst) : Bool :=
  a.cbType == b.cbType && a.requiresTarget == b.requiresTarget
    && a.hasTargetAttr == b.hasTargetAttr

/-- Python dict equality (`==`): same keys with equal values, insertion
order irrelevant.  The lists are dicts, i.e. duplicate-key free. -/
def dictEqB {V : Type} [BEq V] (a b : List (String × V)) : Bool :=
  a.all (fun kv => b.lookup kv.1 == some kv.2)
    && b.all (fun kv => a.lookup kv.1 == some kv.2)

/-- Equality of the non-name parameter value dicts of two instances
(`params == link_params` in `init`): compares `args`, `code`,
`properties` and any subclass parameters with dict semantics. -/
def paramsEqB (a b : CBInst) : Bool :=
  dictEqB a.args b.args
    && (match a.code, b.code with
        | none, none => true
        | some x, some y => dictEqB x y
        | _, _ => false)
    && dictEqB a.properties b.properties
    && dictEqB a.extraParams b.extraParams

/-- The registry: a mapping from source object to the ordered list of
callbacks registered under it (`Callback.registry`). -/
abbrev Registry := List (PyObj × List CBInst)

/-- Registry lookup (`source in registry` / `registry[source]`). -/
def regGet (reg : Registry) (s : PyObj) : Option (List CBInst) :=
  match reg with
  | [] => none
  | (k, v) :: rest => if k = s then some v else regGet rest s

/-- `registry.get(src, [])`. -/
def regGetD (reg : Registry) (s : PyObj) : List CBInst :=
  (regGet reg s).getD []

/-- Registry write (`registry[source] = links`): update the existing key
in place, otherwise append a fresh entry. -/
def regSet (reg : Registry) (s : PyObj) (l : List CBInst) : Registry :=
  match reg with
  | [] => [(s, l)]
  | (k, v) :: rest => if k = s then (s, l) :: rest else (k, v) :: regSet rest s l

/-- The equivalence scan of `Callback.init` / `Link.link`: walk the
existing entries for the source and report whether an equivalent entry
(same concrete type, same source, same target, equal non-name parameter
values) is present.  Reading `.target` on an instance of a class without
the property raises. -/
def scanEquiv (self : CBInst) : List CBInst → Except Err Bool
  | [] => .ok false
  | link :: rest =>
    if sameType link self && link.source == self.source then
      match getTarget link with
      | .error e => .error e
      | .ok lt =>
        match getTarget self with
        | .error e => .error e
        | .ok st =>
          if lt == st && paramsEqB link self then .ok true
          else scanEquiv self rest
    else scanEquiv self rest

/-- `Callback.init`: idempotent registration.  On a raise the registry is
returned unchanged (the scan precedes the append). -/
def init (reg : Registry) (self : CBInst) : Except Err Unit × Registry :=
  match regGet reg self.source with
  | some links =>
    match scanEquiv self links with
    | .error e => (.error e, reg)
    | .ok true => (.ok (), reg)
    | .ok false => (.ok (), regSet reg self.source (links ++ [self]))
  | none => (.ok (), regSet reg self.source [self])

/-- `Link.link`: calls `init` and then repeats the same scan-or-append
logic a second time. -/
def linkFn (reg : Registry) (self : CBInst) : Except Err Unit × Registry :=
  match init reg self with
  | (.error e, reg') => (.error e, reg')
  | (.ok _, reg1) =>
    match regGet reg1 self.source with
    | some links =>
      match scanEquiv self links with
      | .error e => (.error e, reg1)
      | .ok true => (.ok (), reg1)
      | .ok false => (.ok (), regSet reg1 self.source (links ++ [self]))
    | none => (.ok (), regSet reg1 self.source [self])

/-- `Link.unlink`: `registry.get(source)` returns `None` when the key is
absent, and `self in None` then raises `TypeError`; otherwise the first
occurrence of this exact instance is removed
(`links.pop(links.index(self))`), and absence from the list is a no-op. -/
def unlink (reg : Registry) (self : CBInst) : Except Err Unit × Registry :=
  match regGet reg self.source with
  | none => (.error .typeError, reg)
  | some links =>
    if links.contains self then
      (.ok (), regSet reg self.source (links.erase self))
    else (.ok (), reg)

/-- `Callback.__init__(source, target=None, **params)` for the base
`Callback` class: rejects an absent source before any registration, then
registers via `init`.  The `target` argument is discarded (the base class
stores no target and has no `target` property). -/
def constructCallback (instId cbType : Nat) (source : Option PyObj)
    (_target : Option PyObj) (args : List (String × PyObj))
    (code : Option (List (String × String))) (extraParams : List (String × Nat))
    (reg : Registry) : Except Err CBInst × Registry :=
  match source with
  | none => (.error .configurationError, reg)
  | some s =>
    let inst : CBInst :=
      { instId := instId, cbType := cbType, requiresTarget := false,
        hasTargetAttr := false, source := s, target := none,
        args := args, code := code, properties := [], extraParams := extraParams }
    match init reg inst with
    | (.ok _, reg') => (.ok inst, reg')
    | (.error e, reg') => (.error e, reg')

/-- `Link.__init__(source, target=None, **params)` for the `Link` family:
rejects an absent target when the class requires one, then falls through
to the base constructor's source check and registration. -/
def constructLink (instId cbType : Nat) (requiresTarget : Bool)
    (source : Option PyObj) (target : Option PyObj)
    (args : List (String × PyObj)) (code : Option (List (String × String)))
    (properties : List (String × String)) (extraParams : List (String × Nat))
    (reg : Registry) : Except Err CBInst × Registry :=
  if requiresTarget ∧ target = none then (.error .configurationError, reg)
  else
    match source with
    | none => (.error .configurationError, reg)
    | some s =>
      let inst : CBInst :=
        { instId := instId, cbType := cbType, requiresTarget := requiresTarget,
          hasTargetAttr := true, source := s, target := target,
          args := args, code := code, properties := properties,
          extraParams := extraParams }
      match init reg inst with
      | (.ok _, reg') => (.ok inst, reg')
      | (.error e, reg') => (.error e, reg')

/-! ## The resolution pass and the callback generators

External collaborators (bokeh models, the holoviews integration helpers
`is_bokeh_element_plot` / `generate_panel_bokeh_map`, `Viewable.select`,
`Reactive._rename`) live outside `links.py`; they enter the embedding as
the fields of `Env`, an environment fixed for one render pass. -/

/-- An attribute value on a bokeh model: a sub-model or a plain value. -/
inductive AttrVal where
  | m (mid : Nat)
  | v (n : Nat)
deriving DecidableEq, Repr

/-- The code carried by an emitted `CustomJS`: either a snippet supplied
explicitly, or the default property-bridge snippet that
`JSLinkCallbackGenerator._get_code` derives from the two leaf property
names (represented structurally rather than as the formatted JS text). -/
inductive Code where
  | explicit (s : String)
  | generated (srcLeaf : String) (tgtLeaf : Option String)
deriving DecidableEq, Repr

/-- A value in the `references`/`args` mapping of an emitted callback. -/
inductive RefVal where
  | attr (a : AttrVal)
  | obj (o : PyObj)
  | strMap (m : List (String × String))
  | natLit (n : Nat)
deriving DecidableEq, Repr

/-- An emitted `CustomJS` callback. -/
structure CJS where
  args : List (String × RefVal)
  code : Code
  tags : List Nat
deriving DecidableEq, Repr

/-- The mutable state of one bokeh model: its attributes, its
property-change callbacks (`js_property_callbacks`) and its event
callbacks (`js_event_callbacks`). -/
structure BkState where
  attrs : List (String × AttrVal)
  jsPropCbs : List (String × List CJS)
  jsEventCbs : List (String × List CJS)
deriving DecidableEq, Repr

/-- The states of all bokeh models, keyed by model identity. -/
abbrev Models := List (Nat × BkState)

/-- Generic association-list write with dict semantics: update the
existing key in place, otherwise append. -/
def alSet {K V : Type} [BEq K] : List (K × V) → K → V → List (K × V)
  | [], k, v => [(k, v)]
  | (k', v') :: rest, k, v =>
    if k' == k then (k, v) :: rest else (k', v') :: alSet rest k v

/-- Removal part of Python's `dict.pop`. -/
def alPop {K V : Type} [BEq K] : List (K × V) → K → List (K × V)
  | [], _ => []
  | (k', v') :: rest, k => if k' == k then rest else (k', v') :: alPop rest k

/-- `k in d`. -/
def alMem {K V : Type} [BEq K] (d : List (K × V)) (k : K) : Bool :=
  (d.lookup k).isSome

/-- `dict(a, **b)`: a copy of `a` updated by the entries of `b`. -/
def dictMerge {V : Type} (a b : List (String × V)) : List (String × V) :=
  b.foldl (fun d kv => alSet d kv.1 kv.2) a

def modelsGet (st : Models) (mid : Nat) : Option BkState := st.lookup mid

/-- The two shipped generator classes: `JSCallbackGenerator` (registered
for `Callback`) and `JSLinkCallbackGenerator` (registered for `Link`). -/
inductive GenKind where
  | jsCallback
  | jsLink
deriving DecidableEq, Repr

/-- The per-render-pass environment: the select results on the root view
and root model, and the external lookups the resolution consults. -/
structure Env where
  /-- whether the `holoviews` module is loaded -/
  hvActive : Bool
  /-- `root_view.select(Viewable)` -/
  viewSelect : List PyObj
  /-- `root_model.select({'type': BkModel})` -/
  modelSelect : List PyObj
  /-- `obj._models[root_model.ref['id']]`: for a Viewable id, `none`
  means a `KeyError`, `some m?` the stored (possibly `None`) model -/
  viewableModels : Nat → Option (Option Nat)
  /-- `pane._plots[ref][0]` for a HoloViews pane: the bokeh element plot -/
  panePlots : Nat → Option Nat
  /-- `plot.handles` of a bokeh element plot -/
  plotHandles : Nat → List (String × AttrVal)
  /-- `plot.state` of a bokeh element plot -/
  plotState : Nat → Nat
  /-- `isinstance(obj, Reactive)` for a Viewable id -/
  isReactive : Nat → Bool
  /-- `obj._rename.get(prop)` for a Reactive Viewable -/
  rename : Nat → String → Option String
  /-- `Callback._callbacks[type(link)]`: the generator registered for a
  callback class; `none` means a `KeyError` -/
  cbGen : Nat → Option GenKind
  /-- Modelled from the spec: `generate_panel_bokeh_map(root_model,
  hv_views)` of `panel.pane.holoviews` (not under src/) — "a mapping from
  abstract visualization-element handles to concrete rendered-model
  handles"; kept abstract, `map.get(x, [])` is `hvMap x`. -/
  hvMap : PyObj → List PyObj

/-- A spec for the source side: `(path prefix | absent, leaf property)`. -/
abbrev SrcSpec := Option String × String

/-- A spec for the target side; the leaf is absent in pure-code mode. -/
abbrev TgtSpec := Option String × Option String

/-- One `(source_spec, target_spec, code)` triple from `_get_specs`. -/
abbrev SpecTriple := SrcSpec × TgtSpec × Option String

/-- `str.split('.')` on the character list (kernel-computable). -/
def splitDotsAux : List Char → List Char → List String
  | [], acc => [String.mk acc.reverse]
  | c :: cs, acc =>
    if c = '.' then String.mk acc.reverse :: splitDotsAux cs []
    else splitDotsAux cs (c :: acc)

/-- `str.split('.')`: Python's split on the one-character separator. -/
def splitDots (s : String) : List String := splitDotsAux s.data []

/-- Whether `p` is an initial segment of `s` (Python `str.startswith`),
over the character lists. -/
def strStarts (p s : String) : Bool :=
  go p.data s.data
where
  go : List Char → List Char → Bool
    | [], _ => true
    | _ :: _, [] => false
    | c :: cs, d :: ds => c = d && go cs ds

/-- `s[n:]` over the character list. -/
def strDropN (s : String) (n : Nat) : String := String.mk (s.data.drop n)

def dotJoin (parts : List String) : String := String.intercalate "." parts

/-- `source._rename.get(prop, prop)` when the object is a `Reactive`
view, else the property name unchanged. -/
def renameProp (env : Env) (o : PyObj) (p : String) : String :=
  match o with
  | .viewable vid => if env.isReactive vid then (env.rename vid p).getD p else p
  | .hvPane vid => if env.isReactive vid then (env.rename vid p).getD p else p
  | _ => p

def renamePropO (env : Env) (o : Option PyObj) (p : String) : String :=
  match o with
  | some o' => renameProp env o' p
  | none => p

/-- Split a dotted property path into a source spec: more than one
segment gives `(prefix, last)`, a single segment is renamed through the
Reactive rename table. -/
def mkSrcSpec (env : Env) (source : PyObj) (s : String) : SrcSpec :=
  match splitDots s with
  | [] => (none, s)
  | [p] => (none, renameProp env source p)
  | parts => (some (dotJoin parts.dropLast), parts.getLastD "")

/-- Same splitting for the target side of a `properties` pair. -/
def mkTgtSpec (env : Env) (target : Option PyObj) (s : String) : TgtSpec :=
  match splitDots s with
  | [] => (none, some s)
  | [p] => (none, some (renamePropO env target p))
  | parts => (some (dotJoin parts.dropLast), some (parts.getLastD ""))

/-- `if link.code:` — a dict is truthy when non-`None` and non-empty. -/
def codeTruthy : Option (List (String × String)) → Bool
  | none => false
  | some c => !c.isEmpty

/-- `JSCallbackGenerator._get_specs`: iterates the `code` mapping, but
returns a single triple built from the loop variables after the loop, so
only the last entry survives; an empty mapping leaves the loop variables
unbound (`UnboundLocalError`, a `NameError`). -/
def getSpecsCode (env : Env) (source : PyObj) (code : List (String × String)) :
    Except Err (List SpecTriple) :=
  match code.foldl (fun _ kv => some (mkSrcSpec env source kv.1, kv.2)) none with
  | none => .error .nameError
  | some (sp, c) => .ok [(sp, (none, none), some c)]

/-- `JSLinkCallbackGenerator._get_specs`: code mode when `code` is
truthy, otherwise one triple per `properties` pair. -/
def getSpecsLink (env : Env) (link : CBInst) (source : PyObj)
    (target : Option PyObj) : Except Err (List SpecTriple) :=
  match link.code with
  | some c =>
    if c.isEmpty then
      .ok (link.properties.map (fun kv =>
        (mkSrcSpec env source kv.1, mkTgtSpec env target kv.2, none)))
    else getSpecsCode env source c
  | none =>
    .ok (link.properties.map (fun kv =>
      (mkSrcSpec env source kv.1, mkTgtSpec env target kv.2, none)))

/-- `_get_specs` of the generator registered for the link's class; for
`JSCallbackGenerator` a `None` code mapping raises (`None.items()`). -/
def getSpecs (env : Env) (gk : GenKind) (link : CBInst) (source : PyObj)
    (target : Option PyObj) : Except Err (List SpecTriple) :=
  match gk with
  | .jsCallback =>
    match link.code with
    | none => .error .attributeError
    | some c => getSpecsCode env source c
  | .jsLink => getSpecsLink env link source target

/-- `getattr(model, s)` on a resolved model/value. -/
def getAttrStep (st : Models) (a : AttrVal) (s : String) : Except Err AttrVal :=
  match a with
  | .v _ => .error .attributeError
  | .m mid =>
    match modelsGet st mid with
    | none => .error .attributeError
    | some b =>
      match b.attrs.lookup s with
      | some a' => .ok a'
      | none => .error .attributeError

def getAttrPath (st : Models) (a : AttrVal) : List String → Except Err AttrVal
  | [] => .ok a
  | s :: rest =>
    match getAttrStep st a s with
    | .error e => .error e
    | .ok a' => getAttrPath st a' rest

/-- The trailing drill-down of `_resolve_model`:
`for spec in model_spec.split('.'): model = getattr(model, spec)`. -/
def drill (st : Models) (m : Option AttrVal) (spec : Option String) :
    Except Err (Option AttrVal) :=
  match spec with
  | none => .ok m
  | some sp =>
    match m with
    | none => .error .attributeError
    | some a =>
      match getAttrPath st a (splitDots sp) with
      | .error e => .error e
      | .ok a' => .ok (some a')

/-- The Viewable branch of `_resolve_model`:
`model, _ = obj._models[root_model.ref['id']]`. -/
def resolveViewable (env : Env) (st : Models) (vid : Nat)
    (modelSpec : Option String) : Except Err (Option AttrVal) :=
  match env.viewableModels vid with
  | none => .error .keyError
  | some m? => drill st (m?.map .m) modelSpec

/-- `CallbackGenerator._resolve_model` (the object may be absent, as a
`None` target is). -/
def resolveModel (env : Env) (st : Models) (obj : Option PyObj)
    (modelSpec : Option String) : Except Err (Option AttrVal) :=
  match obj with
  | some (.hvPlot pid) =>
    if env.hvActive then
      match modelSpec with
      | none => .ok (some (.m (env.plotState pid)))
      | some spec =>
        match splitDots spec with
        | [] => .error .keyError
        | handleSpec :: rest =>
          match (env.plotHandles pid).lookup handleSpec with
          | none => .error .keyError
          | some h =>
            match getAttrPath st h rest with
            | .error e => .error e
            | .ok a => .ok (some a)
    else drill st none modelSpec
  | some (.viewable vid) => resolveViewable env st vid modelSpec
  | some (.hvPane vid) => resolveViewable env st vid modelSpec
  | some (.bkModel mid) => drill st (some (.m mid)) modelSpec
  | some (.paramObj _) => drill st none modelSpec
  | some (.lit _) => drill st none modelSpec
  | none => drill st none modelSpec

/-- `setattr(model, s, v)`. -/
def setAttr (st : Models) (a : AttrVal) (s : String) (v : AttrVal) :
    Except Err Models :=
  match a with
  | .v _ => .error .attributeError
  | .m mid =>
    match modelsGet st mid with
    | none => .error .attributeError
    | some b => .ok (alSet st mid { b with attrs := alSet b.attrs s v })

/-- The deduplication guard of `_init_callback`: whether any
property-change callback attached to the resolved source model carries
the link's identity in its tags; reading `js_property_callbacks` on
`None` or a plain value raises. -/
def guardCheck (st : Models) (a : Option AttrVal) (tag : Nat) :
    Except Err Bool :=
  match a with
  | some (.m mid) =>
    match modelsGet st mid with
    | none => .error .attributeError
    | some b =>
      .ok (b.jsPropCbs.any (fun kv => kv.2.any (fun cb => cb.tags.contains tag)))
  | _ => .error .attributeError

/-- `model.js_on_change(ch, cb)`: append the callback under the event. -/
def jsOnChange (st : Models) (mid : Nat) (ch : String) (cb : CJS) : Models :=
  match modelsGet st mid with
  | none => st
  | some b =>
    let cbs := ((b.jsPropCbs.lookup ch).getD []) ++ [cb]
    alSet st mid { b with jsPropCbs := alSet b.jsPropCbs ch cbs }

/-- The initial `references` dict: the link's parameter values other
than `source`, `target`, `name`, `code` and `args` — i.e. `properties`
(for the `Link` family) and any subclass parameters. -/
def initialRefs (link : CBInst) : List (String × RefVal) :=
  (if link.hasTargetAttr then [("properties", RefVal.strMap link.properties)] else [])
    ++ link.extraParams.map (fun kv => (kv.1, RefVal.natLit kv.2))

/-- The `args`/override loop of `_init_callback`: a value that resolves
contributes the resolved model, an unresolvable non-Parameterized value
is passed through as a literal, an unresolvable Parameterized value
contributes nothing. -/
def addArgRefs (env : Env) (st : Models) :
    List (String × PyObj) → List (String × RefVal) →
    Except Err (List (String × RefVal))
  | [], refs => .ok refs
  | (k, v) :: rest, refs =>
    match resolveModel env st (some v) none with
    | .error e => .error e
    | .ok (some a) => addArgRefs env st rest (alSet refs k (.attr a))
    | .ok none =>
      if v.isParameterized then addArgRefs env st rest refs
      else addArgRefs env st rest (alSet refs k (.obj v))

/-- Merge a plot's handle table into the references under a prefix,
keeping only bokeh models and never overwriting an existing key. -/
def addHandles (handles : List (String × AttrVal)) (pre : String)
    (refs : List (String × RefVal)) : List (String × RefVal) :=
  handles.foldl (fun r kv =>
    match kv.2 with
    | .m mid =>
      if alMem r (pre ++ kv.1) then r
      else alSet r (pre ++ kv.1) (.attr (.m mid))
    | .v _ => r) refs

/-- The holoviews handle-merging step of `_init_callback`: a HoloViews
pane is first replaced by its element plot (`source._plots[ref][0]`),
then a bokeh element plot's handles are merged in, prefixed `source_`
(for the `Link` family) on the source side and `target_` on the target
side. -/
def hvMergeHandles (env : Env) (link : CBInst) (source : PyObj)
    (target : Option PyObj) (refs : List (String × RefVal)) :
    Except Err (List (String × RefVal)) :=
  if env.hvActive then
    match (match source with
           | .hvPane vid =>
             match env.panePlots vid with
             | none => .error .keyError
             | some pid => .ok (PyObj.hvPlot pid)
           | o => .ok o : Except Err PyObj) with
    | .error e => .error e
    | .ok src =>
      let pre := if link.hasTargetAttr then "source_" else ""
      let refs1 := match src with
        | .hvPlot pid => addHandles (env.plotHandles pid) pre refs
        | _ => refs
      match (match target with
             | some (.hvPane vid) =>
               match env.panePlots vid with
               | none => .error .keyError
               | some pid => .ok (some (PyObj.hvPlot pid))
             | t => .ok t : Except Err (Option PyObj)) with
      | .error e => .error e
      | .ok tgt =>
        match tgt with
        | some (.hvPlot pid) => .ok (addHandles (env.plotHandles pid) "target_" refs1)
        | _ => .ok refs1
  else .ok refs

/-- Python truthiness of a resolved model (`if tgt_model`). -/
def attrTruthy : Option AttrVal → Bool
  | none => false
  | some (.m _) => true
  | some (.v n) => n != 0

/-- Python truthiness of an optional leaf name (`if tgt_spec`). -/
def strTruthy : Option String → Bool
  | none => false
  | some s => !s.isEmpty

/-- `JSLinkCallbackGenerator._initialize_models`: copy the source leaf
property onto the target leaf property when everything is present, then
fail with a `ResolutionError` if no target model was resolved and no
code was supplied. -/
def initializeModelsJSLink (st : Models) (link : CBInst)
    (srcModel : Option AttrVal) (srcLeaf : String)
    (tgtModel : Option AttrVal) (tgtLeaf : Option String) :
    Except Err Models :=
  match (if attrTruthy tgtModel && !srcLeaf.isEmpty && strTruthy tgtLeaf then
           match srcModel, tgtModel, tgtLeaf with
           | sm, some ta, some tl =>
             match sm with
             | none => .error .attributeError
             | some sa =>
               match getAttrStep st sa srcLeaf with
               | .error e => .error e
               | .ok val => setAttr st ta tl val
           | _, _, _ => .ok st
         else .ok st : Except Err Models) with
  | .error e => .error e
  | .ok st' =>
    if tgtModel = none && !codeTruthy link.code then .error .resolutionError
    else .ok st'

/-- `_initialize_models` dispatch: the base hook (used by
`JSCallbackGenerator`) is a no-op. -/
def initializeModels (gk : GenKind) (st : Models) (link : CBInst)
    (srcModel : Option AttrVal) (srcLeaf : String)
    (tgtModel : Option AttrVal) (tgtLeaf : Option String) :
    Except Err Models :=
  match gk with
  | .jsCallback => .ok st
  | .jsLink => initializeModelsJSLink st link srcModel srcLeaf tgtModel tgtLeaf

/-- `JSLinkCallbackGenerator._process_references`: rename each
`target_X` reference to `X` unless it is the `target` key itself or `X`
is already present (in which case the entry is left untouched). -/
def stripRefs (refs : List (String × RefVal)) : List (String × RefVal) :=
  (refs.map Prod.fst).foldl (fun r k =>
    if k == "target" || !(strStarts "target_" k) || alMem r (strDropN k 7) then r
    else
      match r.lookup k with
      | none => r
      | some v => alSet (alPop r k) (strDropN k 7) v) refs

/-- `_process_references` dispatch: the base hook is a no-op. -/
def processRefs (gk : GenKind) (refs : List (String × RefVal)) :
    List (String × RefVal) :=
  match gk with
  | .jsCallback => refs
  | .jsLink => stripRefs refs

/-- `_get_code`: `JSLinkCallbackGenerator` derives the property-bridge
snippet; the base `_get_code` (inherited by `JSCallbackGenerator`) has a
three-argument signature, so the five-argument call raises `TypeError`. -/
def getCode (gk : GenKind) (srcLeaf : String) (tgtLeaf : Option String) :
    Except Err Code :=
  match gk with
  | .jsCallback => .error .typeError
  | .jsLink => .ok (.generated srcLeaf tgtLeaf)

/-- `_get_triggers` of both shipped generators: one property change on
the source leaf, no events. -/
def getTriggers (_gk : GenKind) (srcSpec : SrcSpec) :
    List String × List String :=
  ([srcSpec.2], [])

/-- Add the `target` reference when a target model was resolved. -/
def tgtRefs (refs1 : List (String × RefVal)) (tgtModel : Option AttrVal) :
    List (String × RefVal) :=
  match tgtModel with
  | some a => alSet refs1 "target" (.attr a)
  | none => refs1

/-- The code used for the emitted callback: the spec triple's own code if
present, else the generator's `_get_code`. -/
def codeOf (gk : GenKind) (code : Option String) (srcLeaf : String)
    (tgtLeaf : Option String) : Except Err Code :=
  match code with
  | some c => .ok (Code.explicit c)
  | none => getCode gk srcLeaf tgtLeaf

/-- `CallbackGenerator._init_callback` for one spec triple: build the
references, resolve the source model, apply the deduplication guard,
resolve the target, add argument references, merge holoviews handles,
run `_initialize_models` and `_process_references`, derive the code and
attach the `CustomJS` to the source model.  Mutations performed before a
raise persist in the returned state. -/
def initCallback (env : Env) (gk : GenKind) (link : CBInst) (source : PyObj)
    (srcSpec : SrcSpec) (target : Option PyObj) (tgtSpec : TgtSpec)
    (code : Option String) (overrides : List (String × PyObj)) (st : Models) :
    Except Err Unit × Models :=
  let refs0 := initialRefs link
  match resolveModel env st (some source) srcSpec.1 with
  | .error e => (.error e, st)
  | .ok srcModel =>
    match guardCheck st srcModel link.instId with
    | .error e => (.error e, st)
    | .ok true => (.ok (), st)
    | .ok false =>
      match srcModel with
      | some (.m srcMid) =>
        let refs1 := alSet (alSet refs0 "source" (.attr (.m srcMid)))
          "cb_obj" (.attr (.m srcMid))
        match (if link.requiresTarget then resolveModel env st target tgtSpec.1
               else .ok none : Except Err (Option AttrVal)) with
        | .error e => (.error e, st)
        | .ok tgtModel =>
          match addArgRefs env st (dictMerge link.args overrides)
              (tgtRefs refs1 tgtModel) with
          | .error e => (.error e, st)
          | .ok refs3 =>
            match hvMergeHandles env link source target refs3 with
            | .error e => (.error e, st)
            | .ok refs4 =>
              match initializeModels gk st link srcModel srcSpec.2 tgtModel tgtSpec.2 with
              | .error e => (.error e, st)
              | .ok st1 =>
                let refs5 := processRefs gk refs4
                match codeOf gk code srcSpec.2 tgtSpec.2 with
                | .error e => (.error e, st1)
                | .ok cd =>
                  let cb : CJS := { args := refs5, code := cd, tags := [link.instId] }
                  let (changes, events) := getTriggers gk srcSpec
                  let st2 := changes.foldl (fun s ch => jsOnChange s srcMid ch cb) st1
                  let st3 := events.foldl (fun s _ => s) st2
                  (.ok (), st3)
      | _ => (.error .attributeError, st)

/-- Run `_init_callback` over all spec triples of one generator. -/
def runSpecs (env : Env) (gk : GenKind) (link : CBInst) (source : PyObj)
    (target : Option PyObj) (overrides : List (String × PyObj)) :
    List SpecTriple → Models → Except Err Unit × Models
  | [], st => (.ok (), st)
  | (ss, ts, c) :: rest, st =>
    match initCallback env gk link source ss target ts c overrides st with
    | (.error e, st') => (.error e, st')
    | (.ok _, st') => runSpecs env gk link source target overrides rest st'

/-- `CallbackGenerator.__init__`: validate (a no-op for both shipped
generators), compute the specs and emit each one. -/
def runGenerator (env : Env) (gk : GenKind) (link : CBInst) (source : PyObj)
    (target : Option PyObj) (overrides : List (String × PyObj)) (st : Models) :
    Except Err Unit × Models :=
  match getSpecs env gk link source target with
  | .error e => (.error e, st)
  | .ok specs => runSpecs env gk link source target overrides specs st

/-- One `(link, src, tgt)` triple of the resolution pass. -/
structure Triple where
  link : CBInst
  src : PyObj
  tgt : Option PyObj
deriving DecidableEq, Repr

/-- `link.target in linkable` (a `None` target is never in the list). -/
def optMem (t : Option PyObj) (l : List PyObj) : Bool :=
  match t with
  | none => false
  | some o => l.contains o

/-- The inner loop of the `found` comprehension: keep a registered link
when it does not require a target or its target is in the linkable set;
the kept triple carries `getattr(link, 'target', None)`. -/
def selectLinks (linkable : List PyObj) (src : PyObj) :
    List CBInst → Except Err (List Triple)
  | [] => .ok []
  | link :: rest =>
    match (if link.requiresTarget then
             match getTarget link with
             | .error e => .error e
             | .ok t => .ok (optMem t linkable)
           else .ok true : Except Err Bool) with
    | .error e => .error e
    | .ok keep =>
      match selectLinks linkable src rest with
      | .error e => .error e
      | .ok ts => .ok (if keep then ⟨link, src, getTargetD link⟩ :: ts else ts)

/-- The `found` comprehension of `_process_callbacks`. -/
def foundTriples (reg : Registry) (linkable : List PyObj) :
    List PyObj → Except Err (List Triple)
  | [] => .ok []
  | src :: rest =>
    match selectLinks linkable src (regGetD reg src) with
    | .error e => .error e
    | .ok ts =>
      match foundTriples reg linkable rest with
      | .error e => .error e
      | .ok ts' => .ok (ts ++ ts')

/-- The holoviews argument overrides for one link: for every `args`
entry, the last mapped model wins. -/
def hvOverridesFor (env : Env) (link : CBInst) : List (String × PyObj) :=
  link.args.foldl (fun d kv =>
    (env.hvMap kv.2).foldl (fun d' t => alSet d' kv.1 t) d) []

/-- The extra triples the holoviews step appends for one link. -/
def hvExtrasFor (env : Env) (link : CBInst) (src : PyObj) : List Triple :=
  if link.hasTargetAttr then
    (match link.target with
     | none => []
     | some t => env.hvMap t).map (fun tgt => ⟨link, src, some tgt⟩)
  else []

/-- The holoviews expansion step of `_process_callbacks`: walk the
registry again, appending mapped target triples and recording per-link
argument overrides. -/
def hvExpand (env : Env) (reg : Registry) (linkable : List PyObj) :
    List Triple × List (Nat × List (String × PyObj)) :=
  linkable.foldl (fun acc src =>
    (regGetD reg src).foldl (fun acc' link =>
      (acc'.1 ++ hvExtrasFor env link src,
       alSet acc'.2 link.instId (hvOverridesFor env link))) acc) ([], [])

/-- `arg_overrides.get(id(link), {})`. -/
def ovFor (ovs : List (Nat × List (String × PyObj))) (instId : Nat) :
    List (String × PyObj) :=
  (ovs.lookup instId).getD []

/-- The final loop of `_process_callbacks`: look up the registered
generator (a `KeyError` if the class has none), skip a target-requiring
triple with an absent target, and run the generator; an exception in a
generator propagates, abandoning the remaining triples. -/
def runTriples (env : Env) (ovs : List (Nat × List (String × PyObj))) :
    List Triple → Models → Except Err (List Unit) × Models
  | [], st => (.ok [], st)
  | t :: rest, st =>
    match env.cbGen t.link.cbType with
    | none => (.error .keyError, st)
    | some gk =>
      if t.link.requiresTarget && t.tgt == none then
        runTriples env ovs rest st
      else
        match runGenerator env gk t.link t.src t.tgt (ovFor ovs t.link.instId) st with
        | (.error e, st') => (.error e, st')
        | (.ok _, st') =>
          match runTriples env ovs rest st' with
          | (.error e, st'') => (.error e, st'')
          | (.ok us, st'') => (.ok (() :: us), st'')

/-- The state the resolution pass can observe or mutate: the registry
and the bokeh model states. -/
structure PState where
  registry : Registry
  models : Models
deriving DecidableEq

/-- `Callback._process_callbacks`: the whole resolution pass.  An absent
root model returns immediately; an empty linkable set returns
immediately; otherwise the `found` triples are computed, optionally
expanded by the holoviews step, and each one is emitted. -/
def processCallbacks (env : Env) (rootModel : Option Nat) (ps : PState) :
    Except Err (Option (List Unit)) × PState :=
  match rootModel with
  | none => (.ok none, ps)
  | some _ =>
    let linkable := env.viewSelect ++ env.modelSelect
    if linkable.isEmpty then (.ok none, ps)
    else
      match foundTriples ps.registry linkable linkable with
      | .error e => (.error e, ps)
      | .ok found =>
        let fo :=
          if env.hvActive then
            let eo := hvExpand env ps.registry linkable
            (found ++ eo.1, eo.2)
          else (found, [])
        match runTriples env fo.2 fo.1 ps.models with
        | (.error e, st') => (.error e, { ps with models := st' })
        | (.ok us, st') => (.ok (some us), { ps with models := st' })

/-! ## Sample objects used by witnesses and counterexamples -/

/-- A sample target-carrying link (concrete `Link` instance). -/
def lkA : CBInst :=
  { instId := 1, cbType := 10, requiresTarget := true, hasTargetAttr := true,
    source := .viewable 0, target := some (.bkModel 1), args := [],
    code := none, properties := [("value", "start")], extraParams := [] }

/-- An equivalent second `Link` instance (different identity only). -/
def lkB : CBInst := { lkA with instId := 2 }

/-- A non-equivalent `Link` instance (different `properties`). -/
def lkC : CBInst := { lkA with instId := 3, properties := [("value", "end")] }

/-- A sample base `Callback` instance (no target attribute). -/
def cbA : CBInst :=
  { instId := 4, cbType := 20, requiresTarget := false, hasTargetAttr := false,
    source := .viewable 0, target := none, args := [],
    code := some [("value", "console.log(cb_obj)")], properties := [],
    extraParams := [] }

/-- The comprehension condition of `found` as a predicate: keep a link
when it does not require a target or its target is in the linkable set. -/
def keepCond (linkable : List PyObj) (l : CBInst) : Bool :=
  !l.requiresTarget || optMem l.target linkable

/-- A minimal environment: no holoviews, nothing to select or resolve. -/
def envW : Env :=
  { hvActive := false, viewSelect := [], modelSelect := [],
    viewableModels := fun _ => none, panePlots := fun _ => none,
    plotHandles := fun _ => [], plotState := fun _ => 0,
    isReactive := fun _ => false, rename := fun _ _ => none,
    cbGen := fun _ => none, hvMap := fun _ => [] }

/-- A sample registry holding `lkA` under its source. -/
def regW : Registry := [(.viewable 0, [lkA])]

/-- A sample linkable set containing `lkA`'s source and target. -/
def linkW : List PyObj := [.viewable 0, .bkModel 1]

/-- The triple the sample registry yields. -/
def trW : Triple := ⟨lkA, .viewable 0, some (.bkModel 1)⟩

/-- A target-requiring link whose target is a rendered-but-modelless
Viewable: its target model resolves to `None` and it has no code. -/
def lkBad : CBInst :=
  { instId := 6, cbType := 10, requiresTarget := true, hasTargetAttr := true,
    source := .viewable 0, target := some (.viewable 2), args := [],
    code := none, properties := [("value", "start")], extraParams := [] }

/-- A second, fully resolvable link processed after `lkBad`. -/
def lkGood : CBInst :=
  { instId := 7, cbType := 10, requiresTarget := true, hasTargetAttr := true,
    source := .viewable 1, target := some (.bkModel 3), args := [],
    code := none, properties := [("value", "start")], extraParams := [] }

/-- Environment for the two-triple pass: three viewables and a bokeh
model; viewable 2 has a `None` stored model. -/
def envC5 : Env :=
  { envW with
    viewSelect := [.viewable 0, .viewable 1, .viewable 2],
    modelSelect := [.bkModel 3],
    viewableModels := fun v =>
      if v = 0 then some (some 10) else if v = 1 then some (some 11)
      else if v = 2 then some none else none,
    cbGen := fun t => if t = 10 then some .jsLink else none }

/-- Model states for the two-triple pass. -/
def stC5 : Models :=
  [(10, ⟨[("value", .v 5)], [], []⟩),
   (11, ⟨[("value", .v 7)], [], []⟩),
   (3, ⟨[("start", .v 0)], [], []⟩)]

/-- Registry holding `lkBad` before `lkGood`. -/
def regC5 : Registry := [(.viewable 0, [lkBad]), (.viewable 1, [lkGood])]

/-- Environment for the idempotence witness: only `lkGood`'s source and
target are linkable and everything resolves. -/
def envC3 : Env :=
  { envW with
    viewSelect := [.viewable 1], modelSelect := [.bkModel 3],
    viewableModels := fun v => if v = 1 then some (some 11) else none,
    cbGen := fun t => if t = 10 then some .jsLink else none }

/-- Pass state for the idempotence witness: `lkGood` alone registered. -/
def psC3 : PState := ⟨[(.viewable 1, [lkGood])], stC5⟩

/-- The state after the first resolution pass of the witness. -/
def psC31 : PState := (processCallbacks envC3 (some 0) psC3).2

/-- The number of attached property-change callbacks carrying `tag`
across all models — the listeners the deduplication guard counts. -/
def countTagged (st : Models) (tag : Nat) : Nat :=
  st.foldl (fun n kv =>
    n + kv.2.jsPropCbs.foldl (fun m pc =>
      m + (pc.2.filter (fun cb => cb.tags.contains tag)).length) 0) 0

/-- A link whose source property path is dotted (`a.value`): the source
model is found by drilling through attribute `a` of bokeh model 0, and
the link's target leaf is that same attribute `a`. -/
def lkD : CBInst :=
  { instId := 9, cbType := 10, requiresTarget := true, hasTargetAttr := true,
    source := .bkModel 0, target := some (.bkModel 0), args := [],
    code := none, properties := [("a.value", "a")], extraParams := [] }

/-- Environment for the dotted-path scenario: only bokeh model 0 is
linkable. -/
def envD : Env :=
  { envW with
    modelSelect := [.bkModel 0],
    cbGen := fun t => if t = 10 then some .jsLink else none }

/-- Models for the dotted-path scenario: model 0 drills to model 1
through `a`; model 1's `value` is a reference to model 2; model 2's
`value` is a plain value. -/
def stD : Models :=
  [(0, ⟨[("a", .m 1)], [], []⟩),
   (1, ⟨[("value", .m 2)], [], []⟩),
   (2, ⟨[("value", .v 9)], [], []⟩)]

/-- Pass state for the dotted-path scenario: `lkD` alone registered. -/
def psD : PState := ⟨[(.bkModel 0, [lkD])], stD⟩

/-- The state after the first pass of the dotted-path scenario. -/
def psD1 : PState := (processCallbacks envD (some 0) psD).2

/-- The state after the second pass of the dotted-path scenario. -/
def psD2 : PState := (processCallbacks envD (some 0) psD1).2

/-- A holoviews-backed link whose `args` contain a key (`glyph`) that
collides with a target handle name. -/
def lkHv : CBInst :=
  { instId := 8, cbType := 10, requiresTarget := true, hasTargetAttr := true,
    source := .hvPane 0, target := some (.hvPane 1),
    args := [("glyph", .bkModel 20)],
    code := none, properties := [("value", "start")], extraParams := [] }

/-- Environment with holoviews active: both panes have element plots with
a `glyph` handle. -/
def envHv : Env :=
  { envW with
    hvActive := true,
    viewableModels := fun v =>
      if v = 0 then some (some 10) else if v = 1 then some (some 11)
      else none,
    panePlots := fun v =>
      if v = 0 then some 5 else if v = 1 then some 6 else none,
    plotHandles := fun p =>
      if p = 5 then [("glyph", .m 30)]
      else if p = 6 then [("glyph", .m 21)]
      else [],
    cbGen := fun t => if t = 10 then some .jsLink else none }

/-- Model states for the holoviews scenario. -/
def stHv : Models :=
  [(10, ⟨[("value", .v 5)], [], []⟩),
   (11, ⟨[("start", .v 0)], [], []⟩),
   (20, ⟨[], [], []⟩), (21, ⟨[], [], []⟩), (30, ⟨[], [], []⟩)]

/-- The keep-condition of `_process_references` stated against the
original references: an entry stays under its own key when it is the
`target` key, is not `target_`-prefixed, or its unprefixed name already
occurs in the references. -/
def stripKeep (orig : List (String × RefVal)) (k : String) : Bool :=
  k == "target" || !strStarts "target_" k || alMem orig (strDropN k 7)

/-- Whether some property-change callback attached to model `mid`
carries `tag` — the body of the deduplication guard. -/
def hasTagB (st : Models) (mid tag : Nat) : Bool :=
  match modelsGet st mid with
  | none => false
  | some b =>
    b.jsPropCbs.any (fun kv => kv.2.any (fun cb => cb.tags.contains tag))

/-- All source property paths of a link are single-segment (dot-free),
so its spec prefixes are absent and source resolution does not read the
mutable model state. -/
def dotFreeLink (l : CBInst) : Bool :=
  l.properties.all (fun kv => splitDots kv.1 == [kv.1])
    && (match l.code with
        | none => true
        | some c => c.all (fun kv => splitDots kv.1 == [kv.1]))

/-- Monotone evolution of the model states within a pass: models persist
and dedup tags persist. -/
def TagLe (s t : Models) : Prop :=
  (∀ mid : Nat, (modelsGet s mid).isSome = true →
    (modelsGet t mid).isSome = true) ∧
  (∀ mid tag : Nat, hasTagB s mid tag = true → hasTagB t mid tag = true)

/-! ## Theorems -/

theorem regGet_regSet_self (reg : Registry) (s : PyObj) (l : List CBInst) :
    regGet (regSet reg s l) s = some l := by
  induction reg with
  | nil => simp [regSet, regGet]
  | cons kv rest ih =>
    obtain ⟨k, v⟩ := kv
    by_cases h : k = s
    · simp [regSet, regGet, h]
    · simp [regSet, regGet, h, ih]

/-- C4: constructing a `Callback` with an absent source, or a
target-requiring `Link` with an absent target, fails with the
construction-time error (`ConfigurationError` in the spec's terms,
`ValueError` in the code) and leaves the registry unchanged. -/
theorem construct_absent_raises_before_mutation
    (reg : Registry) (iid ct : Nat) (tgt src : Option PyObj)
    (args : List (String × PyObj)) (code : Option (List (String × String)))
    (props : List (String × String)) (extra : List (String × Nat)) :
    constructCallback iid ct none tgt args code extra reg
      = (.error .configurationError, reg) ∧
    constructLink iid ct true src none args code props extra reg
      = (.error .configurationError, reg) := by
  constructor
  · rfl
  · simp [constructLink]

/-- C6: `unlink()` removes exactly this instance from the registry list
for its source — no other entry is touched and the remaining order is
preserved — and is a silent no-op when the instance is absent from that
list.  (The source's registry list exists after any construction; the
at-most-once hypothesis is the invariant `init` maintains.) -/
theorem unlink_removes_exactly
    (reg : Registry) (l : CBInst) (links : List CBInst)
    (hget : regGet reg l.source = some links) (hcount : links.count l ≤ 1) :
    (l ∈ links →
      unlink reg l = (.ok (), regSet reg l.source (links.erase l)) ∧
      regGet (regSet reg l.source (links.erase l)) l.source
        = some (links.erase l) ∧
      List.Sublist (links.erase l) links ∧
      (links.erase l).count l = 0 ∧
      (∀ x : CBInst, x ≠ l → (links.erase l).count x = links.count x)) ∧
    (l ∉ links → unlink reg l = (.ok (), reg)) := by
  constructor
  · intro hmem
    refine ⟨?_, regGet_regSet_self reg l.source (links.erase l),
      List.erase_sublist l links, ?_, ?_⟩
    · simp [unlink, hget, hmem]
    · have h1 : 0 < links.count l := List.count_pos_iff.2 hmem
      have h2 := List.count_erase_self l links
      omega
    · intro x hx
      exact List.count_erase_of_ne hx links
  · intro hmem
    simp [unlink, hget, hmem]

theorem unlink_removes_exactly_witness :
    unlink [(PyObj.viewable 0, [lkA, lkB])] lkA
      = (.ok (), [(PyObj.viewable 0, [lkB])]) := by
  have h := (unlink_removes_exactly [(PyObj.viewable 0, [lkA, lkB])] lkA
    [lkA, lkB] (by decide) (by decide)).1 (by decide)
  rw [h.1]
  rfl

/-- C9: after a base `Callback` (not a `Link`) is registered under a
source, constructing any further base `Callback` with the same source
raises an `AttributeError` — the equivalence scan reads `.target`, which
the base class does not define — rather than deduplicating or appending;
the registry is left as it was after the first registration. -/
theorem base_callback_rescan_attribute_error
    (reg : Registry) (s : PyObj) (ct id1 id2 : Nat)
    (tgt1 tgt2 : Option PyObj) (args1 args2 : List (String × PyObj))
    (code1 code2 : Option (List (String × String)))
    (extra1 extra2 : List (String × Nat))
    (hnone : regGet reg s = none) :
    (constructCallback id1 ct (some s) tgt1 args1 code1 extra1 reg).1.isOk
      = true ∧
    constructCallback id2 ct (some s) tgt2 args2 code2 extra2
        (constructCallback id1 ct (some s) tgt1 args1 code1 extra1 reg).2
      = (.error .attributeError,
         (constructCallback id1 ct (some s) tgt1 args1 code1 extra1 reg).2) := by
  simp [constructCallback, init, hnone, regGet_regSet_self,
    scanEquiv, sameType, getTarget, Except.isOk, Except.toBool]

theorem base_callback_rescan_attribute_error_witness :
    (constructCallback 4 20 (some (.viewable 0)) none [] none [] []).1.isOk
      = true ∧
    constructCallback 5 20 (some (.viewable 0)) none [] none []
        (constructCallback 4 20 (some (.viewable 0)) none [] none [] []).2
      = (.error .attributeError,
         (constructCallback 4 20 (some (.viewable 0)) none [] none [] []).2) :=
  base_callback_rescan_attribute_error [] (.viewable 0) 20 4 5 none none
    [] [] none none [] [] (by decide)

/-- C1: registering a Link/Callback `c1` (via construction, `init()` or
`link()`) and then an equivalent `c2` (same concrete type, same source,
same target, equal non-name parameter values) leaves the registry list
for the source with exactly one entry — the second registration is a
no-op — while registering a non-equivalent `c3` appends it.  (As `c1`
and `c2` share "the same target", the statement concerns the `Link`
family, which has the `target` property; for the base `Callback` the
scan raises instead.) -/
theorem registration_idempotent
    (reg : Registry) (s : PyObj) (c1 c2 c3 : CBInst)
    (h0 : regGet reg s = none)
    (hs1 : c1.source = s) (hs2 : c2.source = s) (hs3 : c3.source = s)
    (ht1 : c1.hasTargetAttr = true)
    (hty : sameType c1 c2 = true)
    (htg : c1.target = c2.target)
    (hp : paramsEqB c1 c2 = true)
    (hrt2 : c2.requiresTarget = true → c2.target ≠ none)
    (ht3 : c3.hasTargetAttr = true)
    (hne : ¬(sameType c1 c3 = true ∧ c1.target = c3.target ∧
             paramsEqB c1 c3 = true)) :
    init reg c1 = (.ok (), regSet reg s [c1]) ∧
    regGet (regSet reg s [c1]) s = some [c1] ∧
    init (regSet reg s [c1]) c2 = (.ok (), regSet reg s [c1]) ∧
    linkFn (regSet reg s [c1]) c2 = (.ok (), regSet reg s [c1]) ∧
    constructLink c2.instId c2.cbType c2.requiresTarget (some s) c2.target
        c2.args c2.code c2.properties c2.extraParams (regSet reg s [c1])
      = (.ok c2, regSet reg s [c1]) ∧
    init (regSet reg s [c1]) c3
      = (.ok (), regSet (regSet reg s [c1]) s [c1, c3]) := by
  have htyC := hty
  simp only [sameType, Bool.and_eq_true, beq_iff_eq] at htyC
  have h2t : c2.hasTargetAttr = true := htyC.2 ▸ ht1
  have hscan2 : scanEquiv c2 [c1] = .ok true := by
    simp [scanEquiv, hty, hs1, hs2, getTarget, ht1, h2t, htg, hp]
  have hscan3 : scanEquiv c3 [c1] = .ok false := by
    by_cases hst : sameType c1 c3 = true
    · have hcond : (c1.target == c3.target && paramsEqB c1 c3) = false := by
        cases h : (c1.target == c3.target) with
        | false => simp [h]
        | true =>
          cases h' : paramsEqB c1 c3 with
          | false => simp [h, h']
          | true => exact absurd ⟨hst, by simpa using h, h'⟩ hne
      simp [scanEquiv, hst, hs1, hs3, getTarget, ht1, ht3, hcond]
    · have hstF : sameType c1 c3 = false := by simpa using hst
      simp [scanEquiv, hstF]
  have hA : init reg c1 = (.ok (), regSet reg s [c1]) := by
    simp [init, hs1, h0]
  have hB : regGet (regSet reg s [c1]) s = some [c1] :=
    regGet_regSet_self _ _ _
  have hC : init (regSet reg s [c1]) c2 = (.ok (), regSet reg s [c1]) := by
    simp [init, hs2, hB, hscan2]
  have hD : linkFn (regSet reg s [c1]) c2 = (.ok (), regSet reg s [c1]) := by
    simp [linkFn, hC, hs2, hB, hscan2]
  have hinst : ({ instId := c2.instId, cbType := c2.cbType,
                  requiresTarget := c2.requiresTarget, hasTargetAttr := true,
                  source := s, target := c2.target, args := c2.args,
                  code := c2.code, properties := c2.properties,
                  extraParams := c2.extraParams } : CBInst) = c2 := by
    obtain ⟨i, t, rt, hta, src, tg, ar, cd, pr, ex⟩ := c2
    simp_all
  have hE : constructLink c2.instId c2.cbType c2.requiresTarget (some s)
      c2.target c2.args c2.code c2.properties c2.extraParams
      (regSet reg s [c1]) = (.ok c2, regSet reg s [c1]) := by
    have hcond : ¬(c2.requiresTarget = true ∧ c2.target = none) := by
      rintro ⟨h1, h2⟩
      exact hrt2 h1 h2
    simp [constructLink, hcond, hinst, hC]
  have hF : init (regSet reg s [c1]) c3
      = (.ok (), regSet (regSet reg s [c1]) s [c1, c3]) := by
    simp [init, hs3, hB, hscan3]
  exact ⟨hA, hB, hC, hD, hE, hF⟩

theorem registration_idempotent_witness :
    init [] lkA = (.ok (), regSet [] (.viewable 0) [lkA]) ∧
    regGet (regSet [] (.viewable 0) [lkA]) (.viewable 0) = some [lkA] ∧
    init (regSet [] (.viewable 0) [lkA]) lkB
      = (.ok (), regSet [] (.viewable 0) [lkA]) ∧
    linkFn (regSet [] (.viewable 0) [lkA]) lkB
      = (.ok (), regSet [] (.viewable 0) [lkA]) ∧
    constructLink lkB.instId lkB.cbType lkB.requiresTarget
        (some (.viewable 0)) lkB.target lkB.args lkB.code lkB.properties
        lkB.extraParams (regSet [] (.viewable 0) [lkA])
      = (.ok lkB, regSet [] (.viewable 0) [lkA]) ∧
    init (regSet [] (.viewable 0) [lkA]) lkC
      = (.ok (), regSet (regSet [] (.viewable 0) [lkA]) (.viewable 0)
          [lkA, lkC]) :=
  registration_idempotent [] (.viewable 0) lkA lkB lkC (by decide)
    (by decide) (by decide) (by decide) (by decide) (by decide) (by decide)
    (by decide) (by decide) (by decide) (by decide)

theorem foldl_const_some {α β : Type} (g : α → β) (l : List α) (x : α)
    (acc : Option β) :
    (l ++ [x]).foldl (fun _ kv => some (g kv)) acc = some (g x) := by
  induction l generalizing acc with
  | nil => rfl
  | cons y ys ih => exact ih (some (g y))

/-- C10: in pure-code mode `_get_specs` returns exactly one
`(source_spec, target_spec, code)` triple, built from the last entry of
the `code` mapping — every other entry produces no spec (the `return`
sits outside the loop). -/
theorem code_mode_specs_last_entry (env : Env) (link : CBInst)
    (source : PyObj) (target : Option PyObj)
    (l : List (String × String)) (k c : String)
    (hcode : link.code = some (l ++ [(k, c)])) :
    getSpecs env .jsCallback link source target
      = .ok [(mkSrcSpec env source k, (none, none), some c)] ∧
    getSpecs env .jsLink link source target
      = .ok [(mkSrcSpec env source k, (none, none), some c)] := by
  have hfold : getSpecsCode env source (l ++ [(k, c)])
      = .ok [(mkSrcSpec env source k, (none, none), some c)] := by
    unfold getSpecsCode
    rw [show (l ++ [(k, c)]).foldl
        (fun _ kv => some (mkSrcSpec env source kv.1, kv.2)) none
      = some (mkSrcSpec env source k, c) from
      foldl_const_some (fun kv => (mkSrcSpec env source kv.1, kv.2)) l (k, c) none]
  refine ⟨?_, ?_⟩
  · simp [getSpecs, hcode, hfold]
  · simp [getSpecs, getSpecsLink, hcode, hfold]

theorem code_mode_specs_last_entry_witness :
    getSpecs envW .jsCallback cbA (.viewable 0) none
      = .ok [(mkSrcSpec envW (.viewable 0) "value", (none, none),
              some "console.log(cb_obj)")] ∧
    getSpecs envW .jsLink cbA (.viewable 0) none
      = .ok [(mkSrcSpec envW (.viewable 0) "value", (none, none),
              some "console.log(cb_obj)")] :=
  code_mode_specs_last_entry envW cbA (.viewable 0) none []
    "value" "console.log(cb_obj)" rfl

/-- C8: the resolution pass never mutates the registry, and with an
absent root model it returns absent immediately, independently of the
registry contents (no registry reads beyond the guard check). -/
theorem resolution_pass_frame (env : Env) (rootModel : Option Nat)
    (ps : PState) :
    (processCallbacks env rootModel ps).2.registry = ps.registry ∧
    (processCallbacks env none ps = (.ok none, ps) ∧
     ∀ reg' : Registry,
       processCallbacks env none { ps with registry := reg' }
         = (.ok none, { ps with registry := reg' })) := by
  refine ⟨?_, rfl, fun _ => rfl⟩
  cases rootModel with
  | none => rfl
  | some rm =>
    simp only [processCallbacks]
    split
    · rfl
    · split
      · rfl
      · split
        · rfl
        · rfl

theorem selectLinks_eq (linkable : List PyObj) (src : PyObj)
    (links : List CBInst)
    (hwf : ∀ l ∈ links, l.requiresTarget = true → l.hasTargetAttr = true) :
    selectLinks linkable src links
      = .ok ((links.filter (keepCond linkable)).map
          (fun l => ⟨l, src, getTargetD l⟩)) := by
  induction links with
  | nil => rfl
  | cons l rest ih =>
    have hg : (if l.requiresTarget then
                 match getTarget l with
                 | .error e => .error e
                 | .ok t => .ok (optMem t linkable)
               else .ok true : Except Err Bool) = .ok (keepCond linkable l) := by
      cases hr : l.requiresTarget with
      | false => simp [hr, keepCond]
      | true =>
        have hta := hwf l (by simp) hr
        simp [hr, keepCond, getTarget, hta]
    have ih' := ih (fun x hx hr => hwf x (by simp [hx]) hr)
    cases hk : keepCond linkable l with
    | false => simp [selectLinks, hg, ih', List.filter_cons, hk]
    | true => simp [selectLinks, hg, ih', List.filter_cons, hk]

theorem foundTriples_eq (reg : Registry) (linkable : List PyObj)
    (srcs : List PyObj)
    (hwf : ∀ src ∈ srcs, ∀ l ∈ regGetD reg src,
      l.requiresTarget = true → l.hasTargetAttr = true) :
    foundTriples reg linkable srcs
      = .ok (srcs.flatMap (fun src =>
          ((regGetD reg src).filter (keepCond linkable)).map
            (fun l => ⟨l, src, getTargetD l⟩))) := by
  induction srcs with
  | nil => rfl
  | cons src rest ih =>
    have h1 := selectLinks_eq linkable src (regGetD reg src)
      (fun l hl hr => hwf src (by simp) l hl hr)
    have ih' := ih (fun s hs l hl hr => hwf s (by simp [hs]) l hl hr)
    simp [foundTriples, h1, ih']

/-- C2: with a present root model, the `found` triples are exactly those
given by the selection rule — for every `src` in the linkable set and
every link registered under it, the triple `(link, src, link's target)`
is included exactly when the link does not require a target or its
target is also linkable — and the holoviews expansion only appends
triples, never removing one selected by the rule. -/
theorem found_triples_rule (env : Env) (reg : Registry)
    (linkable : List PyObj) (found : List Triple)
    (hwf : ∀ src ∈ linkable, ∀ l ∈ regGetD reg src,
      l.requiresTarget = true → l.hasTargetAttr = true)
    (hfound : foundTriples reg linkable linkable = .ok found) :
    (∀ tr : Triple, tr ∈ found ↔
      (tr.src ∈ linkable ∧ tr.link ∈ regGetD reg tr.src ∧
       tr.tgt = getTargetD tr.link ∧
       (tr.link.requiresTarget = false ∨
        optMem tr.link.target linkable = true))) ∧
    (∀ tr ∈ found, tr ∈ found ++ (hvExpand env reg linkable).1) := by
  rw [foundTriples_eq reg linkable linkable hwf] at hfound
  have hfd : found = linkable.flatMap (fun src =>
      ((regGetD reg src).filter (keepCond linkable)).map
        (fun l => ⟨l, src, getTargetD l⟩)) := by
    injection hfound with h
    exact h.symm
  subst hfd
  refine ⟨?_, fun tr htr => List.mem_append_left _ htr⟩
  intro tr
  constructor
  · intro htr
    rw [List.mem_flatMap] at htr
    obtain ⟨src, hsrc, htr⟩ := htr
    rw [List.mem_map] at htr
    obtain ⟨l, hl, heq⟩ := htr
    rw [List.mem_filter] at hl
    obtain ⟨hl, hkeep⟩ := hl
    subst heq
    refine ⟨hsrc, hl, rfl, ?_⟩
    simp only [keepCond, Bool.or_eq_true, Bool.not_eq_true'] at hkeep
    exact hkeep
  · rintro ⟨hsrc, hl, htgt, hcond⟩
    rw [List.mem_flatMap]
    refine ⟨tr.src, hsrc, ?_⟩
    rw [List.mem_map]
    refine ⟨tr.link, ?_, ?_⟩
    · rw [List.mem_filter]
      refine ⟨hl, ?_⟩
      simp only [keepCond, Bool.or_eq_true, Bool.not_eq_true']
      exact hcond
    · cases tr
      simp_all

theorem found_triples_rule_witness :
    (trW ∈ [trW] ↔
      (trW.src ∈ linkW ∧ trW.link ∈ regGetD regW trW.src ∧
       trW.tgt = getTargetD trW.link ∧
       (trW.link.requiresTarget = false ∨
        optMem trW.link.target linkW = true))) ∧
    trW ∈ [trW] ++ (hvExpand envW regW linkW).1 :=
  ⟨(found_triples_rule envW regW linkW [trW] (by decide) rfl).1 trW,
   (found_triples_rule envW regW linkW [trW] (by decide) rfl).2 trW
     (by decide)⟩

/-- C5 counterexample: with two found triples, the first raising a
`ResolutionError` (unresolvable target, no code), the pass returns the
error with the state untouched — the second triple is never processed —
although the second triple alone would emit (it attaches the tagged
callback on model 11 and initializes model 3).  The claim's "other
triples in the same pass continue to be processed and emitted" is
therefore false of the code, which has no exception handling around the
generator loop. -/
theorem resolution_error_not_contained :
    processCallbacks envC5 (some 99) ⟨regC5, stC5⟩
      = (.error .resolutionError, ⟨regC5, stC5⟩) ∧
    runTriples envC5 [] [⟨lkGood, .viewable 1, some (.bkModel 3)⟩] stC5
      = (.ok [()],
         [(10, ⟨[("value", .v 5)], [], []⟩),
          (11, ⟨[("value", .v 7)],
                [("value",
                  [⟨[("properties", .strMap [("value", "start")]),
                     ("source", .attr (.m 11)), ("cb_obj", .attr (.m 11)),
                     ("target", .attr (.m 3))],
                    .generated "value" (some "start"), [7]⟩])], []⟩),
          (3, ⟨[("start", .v 7)], [], []⟩)]) :=
  ⟨rfl, rfl⟩

/-- C5 (amended): a target-requiring link whose target model resolves to
`None` and which supplies no fallback code fails with a
`ResolutionError`, and — the generator loop having no exception
handling — the failure aborts the resolution pass: the failing triple's
emission is skipped and the triples after it are not processed. -/
theorem resolution_error_aborts_pass
    (env : Env) (ovs : List (Nat × List (String × PyObj)))
    (l1 l2 : List Triple) (t : Triple) (st st1 st2 : Models)
    (us : List Unit) (e : Err) (gk : GenKind)
    (st0 : Models) (link : CBInst) (srcm : Option AttrVal)
    (sl : String) (tl : Option String)
    (hnc : codeTruthy link.code = false)
    (h1 : runTriples env ovs l1 st = (.ok us, st1))
    (hgen : env.cbGen t.link.cbType = some gk)
    (hskip : (t.link.requiresTarget && t.tgt == none) = false)
    (hrun : runGenerator env gk t.link t.src t.tgt
      (ovFor ovs t.link.instId) st1 = (.error e, st2)) :
    initializeModelsJSLink st0 link srcm sl none tl
      = .error .resolutionError ∧
    runTriples env ovs (l1 ++ t :: l2) st = (.error e, st2) := by
  constructor
  · simp [initializeModelsJSLink, attrTruthy, hnc]
  · induction l1 generalizing st us with
    | nil =>
      simp only [runTriples] at h1
      obtain ⟨h1a, h1b⟩ := Prod.mk.injEq .. ▸ h1
      subst h1b
      simp [runTriples, hgen, hskip, hrun]
    | cons a l1' ih =>
      rw [List.cons_append]
      simp only [runTriples] at h1 ⊢
      generalize hga : env.cbGen a.link.cbType = g at h1 ⊢
      cases g with
      | none => exact absurd h1 (by simp)
      | some gk' =>
        by_cases hsk : ((a.link.requiresTarget && a.tgt == none) = true)
        · simp only [if_pos hsk] at h1 ⊢
          exact ih st us h1
        · simp only [if_neg hsk] at h1 ⊢
          rcases hrg : runGenerator env gk' a.link a.src a.tgt
            (ovFor ovs a.link.instId) st with ⟨r, st'⟩
          rw [hrg] at h1
          cases r with
          | error e' => exact absurd h1 (by simp)
          | ok u =>
            dsimp only at h1 ⊢
            rcases hrt : runTriples env ovs l1' st' with ⟨r2, st''⟩
            rw [hrt] at h1
            cases r2 with
            | error e' => exact absurd h1 (by simp)
            | ok us' =>
              dsimp only at h1
              have hst : st'' = st1 := (Prod.mk.injEq .. ▸ h1).2
              subst hst
              rw [ih st' us' hrt]

theorem resolution_error_aborts_pass_witness :
    initializeModelsJSLink stC5 lkBad (some (.m 10)) "value" none
        (some "start") = .error .resolutionError ∧
    runTriples envC5 []
        [⟨lkBad, .viewable 0, some (.viewable 2)⟩,
         ⟨lkGood, .viewable 1, some (.bkModel 3)⟩] stC5
      = (.error .resolutionError, stC5) :=
  resolution_error_aborts_pass envC5 [] []
    [⟨lkGood, .viewable 1, some (.bkModel 3)⟩]
    ⟨lkBad, .viewable 0, some (.viewable 2)⟩ stC5 stC5 stC5 []
    .resolutionError .jsLink stC5 lkBad (some (.m 10)) "value"
    (some "start") rfl rfl rfl rfl rfl

/-- C7 counterexample: when a `target_X` reference collides with an
existing unprefixed `X` (here the arg `glyph` and the target handle
`target_glyph`), `_process_references` leaves the prefixed entry in
place — the references supplied to the emitted callback contain both
`glyph` and `target_glyph` — contradicting the claim that the
`target_`-prefixed entry is dropped on a collision. -/
theorem target_prefixed_reference_kept_on_collision :
    initCallback envHv .jsLink lkHv (.hvPane 0) (none, "value")
        (some (.hvPane 1)) (none, some "start") none [] stHv
      = (.ok (),
         [(10, ⟨[("value", .v 5)],
                [("value",
                  [⟨[("properties", .strMap [("value", "start")]),
                     ("source", .attr (.m 10)), ("cb_obj", .attr (.m 10)),
                     ("target", .attr (.m 11)), ("glyph", .attr (.m 20)),
                     ("source_glyph", .attr (.m 30)),
                     ("target_glyph", .attr (.m 21))],
                    .generated "value" (some "start"), [8]⟩])], []⟩),
          (11, ⟨[("start", .v 5)], [], []⟩),
          (20, ⟨[], [], []⟩), (21, ⟨[], [], []⟩), (30, ⟨[], [], []⟩)]) :=
  rfl

theorem beqT {K : Type} [BEq K] [LawfulBEq K] {k j : K} (h : k = j) :
    (k == j) = true :=
  beq_iff_eq.2 h

theorem beqF {K : Type} [BEq K] [LawfulBEq K] {k j : K} (h : ¬k = j) :
    (k == j) = false :=
  beq_eq_false_iff_ne.2 h

theorem alLookup_append {K V : Type} [BEq K] [LawfulBEq K]
    (a b : List (K × V)) (k : K) :
    (a ++ b).lookup k
      = match a.lookup k with
        | some v => some v
        | none => b.lookup k := by
  induction a with
  | nil => rfl
  | cons kv rest ih =>
    by_cases h : k = kv.1
    · simp [List.lookup, beqT h]
    · simp [List.lookup, beqF h, ih]

theorem alSet_lookup_self {K V : Type} [BEq K] [LawfulBEq K]
    (d : List (K × V)) (k : K) (v : V) :
    (alSet d k v).lookup k = some v := by
  induction d with
  | nil => simp [alSet, List.lookup]
  | cons kv rest ih =>
    by_cases h : kv.1 = k
    · simp [alSet, beqT h, List.lookup]
    · simp [alSet, beqF h, List.lookup, beqF (fun hh => h hh.symm), ih]

theorem alSet_lookup_ne {K V : Type} [BEq K] [LawfulBEq K]
    (d : List (K × V)) (k k' : K) (v : V) (h : k' ≠ k) :
    (alSet d k v).lookup k' = d.lookup k' := by
  induction d with
  | nil => simp [alSet, List.lookup, beqF h]
  | cons kv rest ih =>
    by_cases hk : kv.1 = k
    · subst hk
      simp [alSet, List.lookup, beqF h]
    · by_cases h2 : k' = kv.1
      · simp [alSet, beqF hk, List.lookup, beqT h2]
      · simp [alSet, beqF hk, List.lookup, beqF h2, ih]

theorem alSet_of_absent {K V : Type} [BEq K] [LawfulBEq K]
    (d : List (K × V)) (k : K) (v : V) (h : d.lookup k = none) :
    alSet d k v = d ++ [(k, v)] := by
  induction d with
  | nil => rfl
  | cons kv rest ih =>
    by_cases hk : k = kv.1
    · simp [List.lookup, beqT hk] at h
    · have h' : rest.lookup k = none := by
        simpa [List.lookup, beqF hk] using h
      simp [alSet, beqF (fun hh => hk hh.symm), ih h']

theorem alPop_append_absent {K V : Type} [BEq K] [LawfulBEq K]
    (a b : List (K × V)) (k : K) (ha : a.lookup k = none) :
    alPop (a ++ b) k = a ++ alPop b k := by
  induction a with
  | nil => rfl
  | cons kv rest ih =>
    by_cases hk : k = kv.1
    · simp [List.lookup, beqT hk] at ha
    · have h' : rest.lookup k = none := by
        simpa [List.lookup, beqF hk] using ha
      simp [alPop, beqF (fun hh => hk hh.symm), ih h']

theorem alPop_cons_self {K V : Type} [BEq K] [LawfulBEq K]
    (b : List (K × V)) (k : K) (v : V) : alPop ((k, v) :: b) k = b := by
  simp [alPop]

theorem strStarts_go_iff (p s : List Char) :
    strStarts.go p s = true ↔ s.take p.length = p := by
  induction p generalizing s with
  | nil => simp [strStarts.go]
  | cons c cs ih =>
    cases s with
    | nil => simp [strStarts.go]
    | cons d ds =>
      simp [strStarts.go, ih, List.take_succ_cons, decide_eq_true_iff]
      intro _
      exact ⟨fun h => h.symm, fun h => h.symm⟩

theorem strStarts_data (p s : String) (h : strStarts p s = true) :
    s.data = p.data ++ s.data.drop p.data.length := by
  have h1 := (strStarts_go_iff p.data s.data).1 h
  conv_lhs => rw [← List.take_append_drop p.data.length s.data]
  rw [h1]

theorem strStarts_drop_inj (p d k : String) (hd : strStarts p d = true)
    (hk : strStarts p k = true)
    (h : strDropN d p.data.length = strDropN k p.data.length) : d = k := by
  have hd' := strStarts_data p d hd
  have hk' := strStarts_data p k hk
  have h2 : d.data.drop p.data.length = k.data.drop p.data.length := by
    have := congrArg String.data h
    simpa [strDropN] using this
  have h3 : d.data = k.data := by rw [hd', hk', h2]
  cases d
  cases k
  simp only at h3
  rw [h3]

theorem target_drop7_inj (d k : String) (hd : strStarts "target_" d = true)
    (hk : strStarts "target_" k = true) (h : strDropN d 7 = strDropN k 7) :
    d = k :=
  strStarts_drop_inj "target_" d k hd hk h

theorem alMem_iff_mem_keys {K V : Type} [BEq K] [LawfulBEq K]
    (d : List (K × V)) (k : K) :
    alMem d k = true ↔ k ∈ d.map Prod.fst := by
  induction d with
  | nil => simp [alMem, List.lookup]
  | cons kv rest ih =>
    by_cases h : k = kv.1
    · simp [alMem, List.lookup, beqT h, h]
    · simp only [alMem, List.lookup, beqF h, List.map_cons, List.mem_cons]
      rw [← alMem]
      simp [ih, h]

theorem alLookup_eq_none {K V : Type} [BEq K] [LawfulBEq K]
    (d : List (K × V)) (k : K) (h : k ∉ d.map Prod.fst) :
    d.lookup k = none := by
  induction d with
  | nil => rfl
  | cons kv rest ih =>
    simp only [List.map_cons, List.mem_cons] at h
    push_neg at h
    simp [List.lookup, beqF h.1, ih h.2]

theorem stripRefs_aux (orig : List (String × RefVal))
    (H1 : (orig.map Prod.fst).Nodup)
    (H2 : ∀ kv ∈ orig, strStarts "target_" kv.1 = true →
      strStarts "target_" (strDropN kv.1 7) = false) :
    ∀ (rest done : List (String × RefVal)), orig = done ++ rest →
      ((rest.map Prod.fst).foldl (fun r k =>
          if k == "target" || !(strStarts "target_" k)
              || alMem r (strDropN k 7) then r
          else
            match r.lookup k with
            | none => r
            | some v => alSet (alPop r k) (strDropN k 7) v)
        (done.filter (fun kv => stripKeep orig kv.1) ++ rest
          ++ (done.filter (fun kv => !stripKeep orig kv.1)).map
              (fun kv => (strDropN kv.1 7, kv.2))))
      = orig.filter (fun kv => stripKeep orig kv.1)
        ++ (orig.filter (fun kv => !stripKeep orig kv.1)).map
            (fun kv => (strDropN kv.1 7, kv.2)) := by
  intro rest
  induction rest with
  | nil =>
    intro done h
    rw [List.append_nil] at h
    subst h
    simp
  | cons kv0 rest' ih =>
    intro done h
    obtain ⟨k, v⟩ := kv0
    have hkeys : orig.map Prod.fst
        = done.map Prod.fst ++ k :: rest'.map Prod.fst := by
      rw [h]; simp
    have hn := H1
    rw [hkeys, List.nodup_append] at hn
    obtain ⟨hnd, hnr, hdisj⟩ := hn
    have hkdone : k ∉ done.map Prod.fst := fun hk =>
      (hdisj hk) (List.mem_cons_self _ _)
    have hkmem : (k, v) ∈ orig := by rw [h]; simp
    -- membership of a key in the original references
    have horigkeys : ∀ y : String, y ∈ orig.map Prod.fst ↔
        (y ∈ done.map Prod.fst ∨ y = k ∨ y ∈ rest'.map Prod.fst) := by
      intro y
      rw [hkeys]
      simp
    simp only [List.map_cons, List.foldl_cons]
    by_cases hkeep : stripKeep orig k = true
    · -- the entry stays: the runtime condition matches the static one
      have hcond : (k == "target" || !(strStarts "target_" k)
          || alMem (done.filter (fun kv => stripKeep orig kv.1)
              ++ (k, v) :: rest'
              ++ (done.filter (fun kv => !stripKeep orig kv.1)).map
                  (fun kv => (strDropN kv.1 7, kv.2))) (strDropN k 7)) = true := by
        by_cases ha : k = "target"
        · simp [beqT ha]
        · by_cases hb : strStarts "target_" k = true
          · -- keep must come from the membership disjunct
            have hc : alMem orig (strDropN k 7) = true := by
              have := hkeep
              simp only [stripKeep, beqF ha, hb, Bool.not_true,
                Bool.false_or, Bool.or_eq_true] at this
              simpa using this
            have hx : strStarts "target_" (strDropN k 7) = false :=
              H2 (k, v) hkmem hb
            have hmem := (alMem_iff_mem_keys orig (strDropN k 7)).1 hc
            rw [horigkeys] at hmem
            have hmem2 : strDropN k 7
                ∈ (done.filter (fun kv => stripKeep orig kv.1)
                  ++ (k, v) :: rest'
                  ++ (done.filter (fun kv => !stripKeep orig kv.1)).map
                      (fun kv => (strDropN kv.1 7, kv.2))).map Prod.fst := by
              rcases hmem with hmd | hmk | hmr
              · -- kept entry of done (its key is not target_-prefixed)
                rw [List.mem_map] at hmd
                obtain ⟨kv1, hkv1, hkv1e⟩ := hmd
                have hkv1keep : stripKeep orig kv1.1 = true := by
                  simp [stripKeep, hkv1e, hx]
                have hmm : strDropN k 7
                    ∈ (done.filter (fun kv => stripKeep orig kv.1)).map
                      Prod.fst :=
                  List.mem_map.2 ⟨kv1, List.mem_filter.2 ⟨hkv1, hkv1keep⟩,
                    hkv1e⟩
                simp only [List.map_append, List.mem_append, List.map_cons,
                  List.mem_cons]
                exact Or.inl (Or.inl hmm)
              · exact absurd (hmk ▸ hx) (by simp [hb])
              · simp only [List.map_append, List.mem_append, List.map_cons,
                  List.mem_cons]
                exact Or.inl (Or.inr (Or.inr hmr))
            have hm3 := (alMem_iff_mem_keys _ _).2 hmem2
            simp only [List.append_assoc, List.cons_append] at hm3
            simp only [List.append_assoc, List.cons_append]
            simp [hm3]
          · simp [hb]
      rw [if_pos hcond]
      have h' : orig = (done ++ [(k, v)]) ++ rest' := by rw [h]; simp
      have hrec := ih (done ++ [(k, v)]) h'
      simp only [List.filter_append, List.filter_cons, hkeep,
        Bool.not_true, List.filter_nil, List.map_append, List.map_nil,
        List.append_nil, List.map_cons, List.singleton_append,
        List.append_assoc, if_true, List.cons_append, List.nil_append,
        ite_true, ite_false, if_false] at hrec ⊢
      simpa using hrec
    · -- the entry is renamed
      have hkeepF : stripKeep orig k = false := by
        simpa using hkeep
      have hparts : (k == "target") = false ∧ strStarts "target_" k = true
          ∧ alMem orig (strDropN k 7) = false := by
        have := hkeepF
        simp only [stripKeep, Bool.or_eq_false_iff, Bool.not_eq_false'] at this
        exact ⟨this.1.1, this.1.2, this.2⟩
      obtain ⟨ha, hb, hc⟩ := hparts
      have hx : strStarts "target_" (strDropN k 7) = false :=
        H2 (k, v) hkmem hb
      -- the unprefixed name is absent from the accumulator
      have hxacc : strDropN k 7
          ∉ (done.filter (fun kv => stripKeep orig kv.1)
            ++ (k, v) :: rest'
            ++ (done.filter (fun kv => !stripKeep orig kv.1)).map
                (fun kv => (strDropN kv.1 7, kv.2))).map Prod.fst := by
        intro hmem
        simp only [List.map_append, List.mem_append, List.map_cons,
          List.mem_cons] at hmem
        rcases hmem with (hmd | (hmk | hmr)) | hmren
        · -- would be a key of orig
          rw [List.mem_map] at hmd
          obtain ⟨kv1, hkv1, hkv1e⟩ := hmd
          have : strDropN k 7 ∈ orig.map Prod.fst := by
            rw [horigkeys]
            left
            rw [List.mem_map]
            exact ⟨kv1, (List.mem_filter.1 hkv1).1, hkv1e⟩
          exact absurd ((alMem_iff_mem_keys _ _).2 this) (by simp [hc])
        · exact absurd (hmk ▸ hx) (by simp [hb])
        · have : strDropN k 7 ∈ orig.map Prod.fst := by
            rw [horigkeys]
            right; right
            exact hmr
          exact absurd ((alMem_iff_mem_keys _ _).2 this) (by simp [hc])
        · -- a renamed key would force a duplicate of k
          rw [List.mem_map] at hmren
          obtain ⟨kv2, hkv2, hkv2e⟩ := hmren
          rw [List.mem_map] at hkv2
          obtain ⟨kv1, hkv1, hkv1e⟩ := hkv2
          have hkv1f := List.mem_filter.1 hkv1
          have hkv1s : strStarts "target_" kv1.1 = true := by
            have hsf : stripKeep orig kv1.1 = false := by
              simpa using hkv1f.2
            simp only [stripKeep, Bool.or_eq_false_iff,
              Bool.not_eq_false'] at hsf
            exact hsf.1.2
          have hdrop : strDropN kv1.1 7 = strDropN k 7 := by
            have := congrArg Prod.fst hkv1e
            simp at this
            rw [this, hkv2e]
          have : kv1.1 = k := target_drop7_inj _ _ hkv1s hb hdrop
          exact hkdone (this ▸ List.mem_map_of_mem Prod.fst hkv1f.1)
      have hmemacc : alMem (done.filter (fun kv => stripKeep orig kv.1)
          ++ (k, v) :: rest'
          ++ (done.filter (fun kv => !stripKeep orig kv.1)).map
              (fun kv => (strDropN kv.1 7, kv.2))) (strDropN k 7) = false := by
        rw [Bool.eq_false_iff]
        intro hmm
        exact hxacc ((alMem_iff_mem_keys _ _).1 hmm)
      have hmemacc2 : alMem (done.filter (fun kv => stripKeep orig kv.1)
          ++ (k, v) :: (rest'
          ++ (done.filter (fun kv => !stripKeep orig kv.1)).map
              (fun kv => (strDropN kv.1 7, kv.2)))) (strDropN k 7)
          = false := by
        have hh := hmemacc
        simp only [List.append_assoc, List.cons_append] at hh
        exact hh
      rw [if_neg (by simp [ha, hb, hmemacc, hmemacc2])]
      have hDKnone : (done.filter
          (fun kv => stripKeep orig kv.1)).lookup k = none := by
        apply alLookup_eq_none
        intro hk
        rw [List.mem_map] at hk
        obtain ⟨kv1, hkv1, hkv1e⟩ := hk
        exact hkdone (hkv1e ▸ List.mem_map_of_mem Prod.fst
          (List.mem_filter.1 hkv1).1)
      have hlk : (done.filter (fun kv => stripKeep orig kv.1)
          ++ (k, v) :: rest'
          ++ (done.filter (fun kv => !stripKeep orig kv.1)).map
              (fun kv => (strDropN kv.1 7, kv.2))).lookup k = some v := by
        rw [List.append_assoc, alLookup_append, hDKnone]
        simp [List.lookup]
      rw [hlk]
      have hpop : alPop (done.filter (fun kv => stripKeep orig kv.1)
          ++ (k, v) :: rest'
          ++ (done.filter (fun kv => !stripKeep orig kv.1)).map
              (fun kv => (strDropN kv.1 7, kv.2))) k
          = done.filter (fun kv => stripKeep orig kv.1)
            ++ (rest' ++ (done.filter (fun kv => !stripKeep orig kv.1)).map
                (fun kv => (strDropN kv.1 7, kv.2))) := by
        rw [List.append_assoc, alPop_append_absent _ _ _ hDKnone]
        rw [show ((k, v) :: rest'
            ++ (done.filter (fun kv => !stripKeep orig kv.1)).map
                (fun kv => (strDropN kv.1 7, kv.2)))
          = (k, v) :: (rest'
            ++ (done.filter (fun kv => !stripKeep orig kv.1)).map
                (fun kv => (strDropN kv.1 7, kv.2))) from rfl]
        rw [alPop_cons_self]
      rw [hpop]
      dsimp only
      have hsetnone : (done.filter (fun kv => stripKeep orig kv.1)
          ++ (rest' ++ (done.filter (fun kv => !stripKeep orig kv.1)).map
              (fun kv => (strDropN kv.1 7, kv.2)))).lookup
            (strDropN k 7) = none := by
        apply alLookup_eq_none
        intro hk
        apply hxacc
        simp only [List.map_append, List.mem_append, List.map_cons,
          List.mem_cons] at hk ⊢
        rcases hk with h1 | h2 | h3
        · exact Or.inl (Or.inl h1)
        · exact Or.inl (Or.inr (Or.inr h2))
        · exact Or.inr h3
      rw [alSet_of_absent _ _ _ hsetnone]
      have h' : orig = (done ++ [(k, v)]) ++ rest' := by rw [h]; simp
      have hrec := ih (done ++ [(k, v)]) h'
      simp only [List.filter_append, List.filter_cons, hkeepF,
        Bool.not_false, List.filter_nil, List.map_append, List.map_nil,
        List.append_nil, List.map_cons, List.singleton_append,
        List.append_assoc, List.cons_append, List.nil_append,
        ite_true, ite_false, if_true, if_false] at hrec ⊢
      simpa using hrec

theorem stripRefs_eq (refs : List (String × RefVal))
    (H1 : (refs.map Prod.fst).Nodup)
    (H2 : ∀ kv ∈ refs, strStarts "target_" kv.1 = true →
      strStarts "target_" (strDropN kv.1 7) = false) :
    stripRefs refs
      = refs.filter (fun kv => stripKeep refs kv.1)
        ++ (refs.filter (fun kv => !stripKeep refs kv.1)).map
            (fun kv => (strDropN kv.1 7, kv.2)) := by
  have h := stripRefs_aux refs H1 H2 refs [] rfl
  simpa [stripRefs] using h

theorem alLookup_filter_keyT {K V : Type} [BEq K] [LawfulBEq K]
    (d : List (K × V)) (q : K → Bool) (k : K) (hq : q k = true) :
    (d.filter (fun kv => q kv.1)).lookup k = d.lookup k := by
  induction d with
  | nil => rfl
  | cons kv rest ih =>
    by_cases hk : k = kv.1
    · rw [List.filter_cons, if_pos (by simp [← hk, hq])]
      simp [List.lookup, beqT hk]
    · by_cases hkv : q kv.1 = true
      · rw [List.filter_cons, if_pos (by simp [hkv])]
        simp [List.lookup, beqF hk, ih]
      · rw [List.filter_cons, if_neg (by simp [hkv])]
        simp [List.lookup, beqF hk, ih]

theorem alLookup_filter_keyF {K V : Type} [BEq K] [LawfulBEq K]
    (d : List (K × V)) (q : K → Bool) (k : K) (hq : q k = false) :
    (d.filter (fun kv => q kv.1)).lookup k = none := by
  induction d with
  | nil => rfl
  | cons kv rest ih =>
    by_cases hk : k = kv.1
    · rw [List.filter_cons, if_neg (by simp [← hk, hq])]
      exact ih
    · by_cases hkv : q kv.1 = true
      · rw [List.filter_cons, if_pos (by simp [hkv])]
        simp [List.lookup, beqF hk, ih]
      · rw [List.filter_cons, if_neg (by simp [hkv])]
        exact ih

theorem alLookup_of_mem {K V : Type} [BEq K] [LawfulBEq K]
    (d : List (K × V)) (k : K) (v : V)
    (hnd : (d.map Prod.fst).Nodup) (hm : (k, v) ∈ d) :
    d.lookup k = some v := by
  induction d with
  | nil => cases hm
  | cons kv rest ih =>
    rw [List.map_cons, List.nodup_cons] at hnd
    rcases List.mem_cons.1 hm with he | ht
    · rw [← he]
      simp [List.lookup]
    · have hk : k ≠ kv.1 := by
        intro hkk
        exact hnd.1 (hkk ▸ List.mem_map_of_mem Prod.fst ht)
      simp [List.lookup, beqF hk, ih hnd.2 ht]

theorem alLookup_mem {K V : Type} [BEq K] [LawfulBEq K]
    (d : List (K × V)) (k : K) (v : V)
    (h : d.lookup k = some v) : (k, v) ∈ d := by
  induction d with
  | nil => cases h
  | cons kv rest ih =>
    by_cases hk : k = kv.1
    · simp only [List.lookup, beqT hk] at h
      injection h with h
      have : kv = (k, v) := by
        cases kv
        simp only at hk h
        simp [hk, h]
      rw [this]
      exact List.mem_cons_self _ _
    · simp only [List.lookup, beqF hk] at h
      exact List.mem_cons_of_mem _ (ih h)

theorem stripRefs_lookup_keep (refs : List (String × RefVal)) (k : String)
    (v : RefVal) (H1 : (refs.map Prod.fst).Nodup)
    (H2 : ∀ kv ∈ refs, strStarts "target_" kv.1 = true →
      strStarts "target_" (strDropN kv.1 7) = false)
    (hkv : refs.lookup k = some v) (hkeep : stripKeep refs k = true) :
    (stripRefs refs).lookup k = some v := by
  rw [stripRefs_eq refs H1 H2, alLookup_append,
    alLookup_filter_keyT _ _ _ hkeep, hkv]

theorem stripRefs_lookup_renamed (refs : List (String × RefVal))
    (k : String) (v : RefVal) (H1 : (refs.map Prod.fst).Nodup)
    (H2 : ∀ kv ∈ refs, strStarts "target_" kv.1 = true →
      strStarts "target_" (strDropN kv.1 7) = false)
    (hkv : refs.lookup k = some v) (hks : strStarts "target_" k = true)
    (hkt : (k == "target") = false)
    (hmem : alMem refs (strDropN k 7) = false) :
    (stripRefs refs).lookup (strDropN k 7) = some v ∧
    (stripRefs refs).lookup k = none := by
  have hkeepF : stripKeep refs k = false := by
    simp [stripKeep, hkt, hks, hmem]
  have hkm : (k, v) ∈ refs := alLookup_mem _ _ _ hkv
  have hx : strStarts "target_" (strDropN k 7) = false := H2 (k, v) hkm hks
  have hdropnone : refs.lookup (strDropN k 7) = none := by
    cases hlc : refs.lookup (strDropN k 7) with
    | none => rfl
    | some w => simp [alMem, hlc] at hmem
  constructor
  · rw [stripRefs_eq refs H1 H2, alLookup_append]
    have h1 : (refs.filter
        (fun kv => stripKeep refs kv.1)).lookup (strDropN k 7) = none := by
      rw [alLookup_filter_keyT _ _ _ (by simp [stripKeep, hx]), hdropnone]
    rw [h1]
    -- the renamed part holds the entry
    have hfm : (k, v) ∈ refs.filter (fun kv => !stripKeep refs kv.1) :=
      List.mem_filter.2 ⟨hkm, by simp [hkeepF]⟩
    have hrm : (strDropN k 7, v)
        ∈ (refs.filter (fun kv => !stripKeep refs kv.1)).map
            (fun kv => (strDropN kv.1 7, kv.2)) :=
      List.mem_map.2 ⟨(k, v), hfm, rfl⟩
    apply alLookup_of_mem _ _ _ ?_ hrm
    -- keys of the renamed part are nodup: drop7 is injective on the
    -- target_-prefixed non-kept keys
    have hsub : ((refs.filter (fun kv => !stripKeep refs kv.1)).map
        Prod.fst).Nodup := by
      have : List.Sublist ((refs.filter
          (fun kv => !stripKeep refs kv.1)).map Prod.fst)
          (refs.map Prod.fst) :=
        (List.filter_sublist refs).map Prod.fst
      exact this.nodup H1
    have hkeysmap : ((refs.filter (fun kv => !stripKeep refs kv.1)).map
          (fun kv => (strDropN kv.1 7, kv.2))).map Prod.fst
        = ((refs.filter (fun kv => !stripKeep refs kv.1)).map
            Prod.fst).map (fun s => strDropN s 7) := by
      simp [List.map_map]
    rw [hkeysmap]
    apply List.Nodup.map_on ?_ hsub
    intro x hxm y hym hxy
    -- both x and y are target_-prefixed keys of non-kept entries
    have hxp : strStarts "target_" x = true := by
      rw [List.mem_map] at hxm
      obtain ⟨kv1, hkv1, hkv1e⟩ := hxm
      have hf := (List.mem_filter.1 hkv1).2
      have hsf : stripKeep refs kv1.1 = false := by simpa using hf
      simp only [stripKeep, Bool.or_eq_false_iff,
        Bool.not_eq_false'] at hsf
      exact hkv1e ▸ hsf.1.2
    have hyp : strStarts "target_" y = true := by
      rw [List.mem_map] at hym
      obtain ⟨kv1, hkv1, hkv1e⟩ := hym
      have hf := (List.mem_filter.1 hkv1).2
      have hsf : stripKeep refs kv1.1 = false := by simpa using hf
      simp only [stripKeep, Bool.or_eq_false_iff,
        Bool.not_eq_false'] at hsf
      exact hkv1e ▸ hsf.1.2
    exact target_drop7_inj x y hxp hyp hxy
  · rw [stripRefs_eq refs H1 H2, alLookup_append]
    have h1 : (refs.filter (fun kv => stripKeep refs kv.1)).lookup k
        = none := alLookup_filter_keyF _ _ _ hkeepF
    rw [h1]
    apply alLookup_eq_none
    intro hm
    simp only [List.map_map, List.mem_map] at hm
    obtain ⟨kv1, hkv1, hkv1e⟩ := hm
    have hf := (List.mem_filter.1 hkv1).2
    have hsf : stripKeep refs kv1.1 = false := by simpa using hf
    simp only [stripKeep, Bool.or_eq_false_iff, Bool.not_eq_false'] at hsf
    have hkv1p : strStarts "target_" kv1.1 = true := hsf.1.2
    have : strStarts "target_" (strDropN kv1.1 7) = false :=
      H2 kv1 (List.mem_filter.1 hkv1).1 hkv1p
    rw [show (Prod.fst ∘ fun kv => (strDropN kv.1 7, kv.2)) kv1
        = strDropN kv1.1 7 from rfl] at hkv1e
    rw [hkv1e] at this
    exact absurd hks (by simp [this])

theorem addArgRefs_frame (env : Env) (st : Models) :
    ∀ (merged : List (String × PyObj)) (refs refs' : List (String × RefVal)),
      addArgRefs env st merged refs = .ok refs' →
      ∀ k : String, (∀ kv ∈ merged, kv.1 ≠ k) →
        refs'.lookup k = refs.lookup k := by
  intro merged
  induction merged with
  | nil =>
    intro refs refs' h k _
    injection h with h
    rw [← h]
  | cons kv rest ih =>
    intro refs refs' h k hk
    obtain ⟨k0, v0⟩ := kv
    have hk0 : k0 ≠ k := hk (k0, v0) (List.mem_cons_self _ _)
    have hkr : ∀ kv ∈ rest, kv.1 ≠ k := fun kv hkv =>
      hk kv (List.mem_cons_of_mem _ hkv)
    simp only [addArgRefs] at h
    cases hres : resolveModel env st (some v0) none with
    | error e => rw [hres] at h; cases h
    | ok m =>
      rw [hres] at h
      cases m with
      | some a =>
        rw [ih _ _ h k hkr, alSet_lookup_ne _ _ _ _ (Ne.symm hk0)]
      | none =>
        by_cases hp : v0.isParameterized = true
        · rw [hp] at h
          simp only [if_true] at h
          exact ih _ _ h k hkr
        · have hpf : v0.isParameterized = false := by simpa using hp
          rw [hpf] at h
          simp only [Bool.false_eq_true, if_false] at h
          rw [ih _ _ h k hkr, alSet_lookup_ne _ _ _ _ (Ne.symm hk0)]

theorem addArgRefs_entry (env : Env) (st : Models) :
    ∀ (merged : List (String × PyObj)) (refs refs' : List (String × RefVal))
      (k : String) (v : PyObj),
      addArgRefs env st merged refs = .ok refs' →
      (k, v) ∈ merged → (merged.map Prod.fst).Nodup →
      ((∀ a : AttrVal, resolveModel env st (some v) none = .ok (some a) →
          refs'.lookup k = some (.attr a)) ∧
       (resolveModel env st (some v) none = .ok none →
          v.isParameterized = false → refs'.lookup k = some (.obj v)) ∧
       (resolveModel env st (some v) none = .ok none →
          v.isParameterized = true → refs'.lookup k = refs.lookup k)) := by
  intro merged
  induction merged with
  | nil =>
    intro refs refs' k v _ hm
    cases hm
  | cons kv rest ih =>
    intro refs refs' k v h hm hnd
    obtain ⟨k0, v0⟩ := kv
    rw [List.map_cons, List.nodup_cons] at hnd
    simp only [addArgRefs] at h
    rcases List.mem_cons.1 hm with he | ht
    · -- the entry is the head; later entries cannot touch its key
      injection he with he1 he2
      subst he1
      subst he2
      have hrest : ∀ kv ∈ rest, kv.1 ≠ k := by
        intro kv2 hkv2 hkk
        apply hnd.1
        rw [← hkk]
        exact List.mem_map.2 ⟨kv2, hkv2, rfl⟩
      refine ⟨?_, ?_, ?_⟩
      · intro a hres
        rw [hres] at h
        rw [addArgRefs_frame env st rest _ _ h k hrest,
          alSet_lookup_self]
      · intro hres hp
        rw [hres, hp] at h
        simp only [Bool.false_eq_true, if_false] at h
        rw [addArgRefs_frame env st rest _ _ h k hrest,
          alSet_lookup_self]
      · intro hres hp
        rw [hres, hp] at h
        simp only [if_true] at h
        exact addArgRefs_frame env st rest _ _ h k hrest
    · -- the entry sits in the tail; the head step only changes its own key
      have hk0 : k0 ≠ k := by
        intro hkk
        apply hnd.1
        rw [hkk]
        exact List.mem_map.2 ⟨(k, v), ht, rfl⟩
      cases hres0 : resolveModel env st (some v0) none with
      | error e => rw [hres0] at h; cases h
      | ok m =>
        rw [hres0] at h
        cases m with
        | some a0 =>
          have := ih _ _ k v h ht hnd.2
          refine ⟨this.1, this.2.1, ?_⟩
          intro hres hp
          rw [this.2.2 hres hp, alSet_lookup_ne _ _ _ _ (Ne.symm hk0)]
        | none =>
          by_cases hp0 : v0.isParameterized = true
          · rw [hp0] at h
            simp only [if_true] at h
            exact ih _ _ k v h ht hnd.2
          · have hpf : v0.isParameterized = false := by simpa using hp0
            rw [hpf] at h
            simp only [Bool.false_eq_true, if_false] at h
            have := ih _ _ k v h ht hnd.2
            refine ⟨this.1, this.2.1, ?_⟩
            intro hres hp
            rw [this.2.2 hres hp, alSet_lookup_ne _ _ _ _ (Ne.symm hk0)]

/-- C7 (amended): the references supplied to an emitted callback always
bind `source` and `cb_obj` to the resolved source model and `target` to
the resolved target model (when it resolves); each `args`/override entry
contributes the resolved model when its value resolves, the literal
value when it is not Parameterized, and nothing at all when an
unresolvable Parameterized value; and `_process_references` renames a
`target_X` reference to `X` when the unprefixed name is absent, while on
a collision the unprefixed entry keeps its value and the
`target_`-prefixed entry is retained under its prefixed name. -/
theorem references_mapping_correct
    (env : Env) (st : Models) (link : CBInst) (srcm tgtm : AttrVal)
    (merged : List (String × PyObj)) (refs3 refs : List (String × RefVal))
    (k kq : String) (v : PyObj) (w : RefVal)
    (hargs : addArgRefs env st merged
        (alSet (alSet (alSet (initialRefs link) "source" (.attr srcm))
          "cb_obj" (.attr srcm)) "target" (.attr tgtm)) = .ok refs3)
    (hker : ∀ kv ∈ merged,
      kv.1 ≠ "source" ∧ kv.1 ≠ "cb_obj" ∧ kv.1 ≠ "target")
    (hm : (k, v) ∈ merged) (hnd : (merged.map Prod.fst).Nodup)
    (H1 : (refs.map Prod.fst).Nodup)
    (H2 : ∀ kv ∈ refs, strStarts "target_" kv.1 = true →
      strStarts "target_" (strDropN kv.1 7) = false)
    (hkv : refs.lookup kq = some w) :
    (refs3.lookup "source" = some (.attr srcm) ∧
     refs3.lookup "cb_obj" = some (.attr srcm) ∧
     refs3.lookup "target" = some (.attr tgtm)) ∧
    ((∀ a : AttrVal, resolveModel env st (some v) none = .ok (some a) →
        refs3.lookup k = some (.attr a)) ∧
     (resolveModel env st (some v) none = .ok none →
        v.isParameterized = false → refs3.lookup k = some (.obj v)) ∧
     (resolveModel env st (some v) none = .ok none →
        v.isParameterized = true →
        (alSet (alSet (alSet (initialRefs link) "source" (.attr srcm))
          "cb_obj" (.attr srcm)) "target" (.attr tgtm)).lookup k = none →
        refs3.lookup k = none)) ∧
    ((stripKeep refs kq = true → (stripRefs refs).lookup kq = some w) ∧
     (strStarts "target_" kq = true → (kq == "target") = false →
      alMem refs (strDropN kq 7) = false →
        (stripRefs refs).lookup (strDropN kq 7) = some w ∧
        (stripRefs refs).lookup kq = none)) := by
  refine ⟨⟨?_, ?_, ?_⟩, ⟨?_, ?_, ?_⟩, ⟨?_, ?_⟩⟩
  · rw [addArgRefs_frame env st merged _ refs3 hargs "source"
      (fun kv hkv2 => (hker kv hkv2).1)]
    rw [alSet_lookup_ne _ _ _ _ (by decide),
      alSet_lookup_ne _ _ _ _ (by decide), alSet_lookup_self]
  · rw [addArgRefs_frame env st merged _ refs3 hargs "cb_obj"
      (fun kv hkv2 => (hker kv hkv2).2.1)]
    rw [alSet_lookup_ne _ _ _ _ (by decide), alSet_lookup_self]
  · rw [addArgRefs_frame env st merged _ refs3 hargs "target"
      (fun kv hkv2 => (hker kv hkv2).2.2)]
    rw [alSet_lookup_self]
  · exact (addArgRefs_entry env st merged _ refs3 k v hargs hm hnd).1
  · exact (addArgRefs_entry env st merged _ refs3 k v hargs hm hnd).2.1
  · intro hres hp h0
    rw [(addArgRefs_entry env st merged _ refs3 k v hargs hm hnd).2.2
      hres hp]
    exact h0
  · intro hkeep
    exact stripRefs_lookup_keep refs kq w H1 H2 hkv hkeep
  · intro hks hkt hmem
    exact stripRefs_lookup_renamed refs kq w H1 H2 hkv hks hkt hmem

theorem references_mapping_correct_witness :
    (([("properties", RefVal.strMap [("value", "start")]),
       ("source", RefVal.attr (.m 10)), ("cb_obj", RefVal.attr (.m 10)),
       ("target", RefVal.attr (.m 11)), ("glyph", RefVal.attr (.m 20)),
       ("plain", RefVal.obj (.lit 3))] : List (String × RefVal)).lookup
        "source" = some (RefVal.attr (.m 10)) ∧
     ([("properties", RefVal.strMap [("value", "start")]),
       ("source", RefVal.attr (.m 10)), ("cb_obj", RefVal.attr (.m 10)),
       ("target", RefVal.attr (.m 11)), ("glyph", RefVal.attr (.m 20)),
       ("plain", RefVal.obj (.lit 3))] : List (String × RefVal)).lookup
        "cb_obj" = some (RefVal.attr (.m 10)) ∧
     ([("properties", RefVal.strMap [("value", "start")]),
       ("source", RefVal.attr (.m 10)), ("cb_obj", RefVal.attr (.m 10)),
       ("target", RefVal.attr (.m 11)), ("glyph", RefVal.attr (.m 20)),
       ("plain", RefVal.obj (.lit 3))] : List (String × RefVal)).lookup
        "target" = some (RefVal.attr (.m 11))) ∧
    ((∀ a : AttrVal, resolveModel envW [] (some (.bkModel 20)) none
        = .ok (some a) →
        ([("properties", RefVal.strMap [("value", "start")]),
          ("source", RefVal.attr (.m 10)), ("cb_obj", RefVal.attr (.m 10)),
          ("target", RefVal.attr (.m 11)), ("glyph", RefVal.attr (.m 20)),
          ("plain", RefVal.obj (.lit 3))] :
            List (String × RefVal)).lookup "glyph" = some (.attr a)) ∧
     (resolveModel envW [] (some (.bkModel 20)) none = .ok none →
        (PyObj.bkModel 20).isParameterized = false →
        ([("properties", RefVal.strMap [("value", "start")]),
          ("source", RefVal.attr (.m 10)), ("cb_obj", RefVal.attr (.m 10)),
          ("target", RefVal.attr (.m 11)), ("glyph", RefVal.attr (.m 20)),
          ("plain", RefVal.obj (.lit 3))] :
            List (String × RefVal)).lookup "glyph"
          = some (.obj (.bkModel 20))) ∧
     (resolveModel envW [] (some (.bkModel 20)) none = .ok none →
        (PyObj.bkModel 20).isParameterized = true →
        (alSet (alSet (alSet (initialRefs lkA) "source" (.attr (.m 10)))
          "cb_obj" (.attr (.m 10))) "target" (.attr (.m 11))).lookup
            "glyph" = none →
        ([("properties", RefVal.strMap [("value", "start")]),
          ("source", RefVal.attr (.m 10)), ("cb_obj", RefVal.attr (.m 10)),
          ("target", RefVal.attr (.m 11)), ("glyph", RefVal.attr (.m 20)),
          ("plain", RefVal.obj (.lit 3))] :
            List (String × RefVal)).lookup "glyph" = none)) ∧
    ((stripKeep [("glyph", RefVal.natLit 1), ("target_glyph", RefVal.natLit 2)]
        "target_glyph" = true →
      (stripRefs [("glyph", RefVal.natLit 1),
        ("target_glyph", RefVal.natLit 2)]).lookup "target_glyph"
        = some (RefVal.natLit 2)) ∧
     (strStarts "target_" "target_glyph" = true →
      ("target_glyph" == "target") = false →
      alMem [("glyph", RefVal.natLit 1), ("target_glyph", RefVal.natLit 2)]
        (strDropN "target_glyph" 7) = false →
      (stripRefs [("glyph", RefVal.natLit 1),
        ("target_glyph", RefVal.natLit 2)]).lookup
          (strDropN "target_glyph" 7) = some (RefVal.natLit 2) ∧
      (stripRefs [("glyph", RefVal.natLit 1),
        ("target_glyph", RefVal.natLit 2)]).lookup "target_glyph"
        = none)) :=
  references_mapping_correct envW [] lkA (.m 10) (.m 11)
    [("glyph", .bkModel 20), ("plain", .lit 3), ("pp", .paramObj 9)]
    [("properties", RefVal.strMap [("value", "start")]),
     ("source", RefVal.attr (.m 10)), ("cb_obj", RefVal.attr (.m 10)),
     ("target", RefVal.attr (.m 11)), ("glyph", RefVal.attr (.m 20)),
     ("plain", RefVal.obj (.lit 3))]
    [("glyph", RefVal.natLit 1), ("target_glyph", RefVal.natLit 2)]
    "glyph" "target_glyph" (.bkModel 20) (RefVal.natLit 2)
    rfl (by decide) (by decide) (by decide) (by decide) (by decide) rfl

theorem TagLe_refl (s : Models) : TagLe s s :=
  ⟨fun _ h => h, fun _ _ h => h⟩

theorem TagLe_trans {s t u : Models} (h1 : TagLe s t) (h2 : TagLe t u) :
    TagLe s u :=
  ⟨fun mid h => h2.1 mid (h1.1 mid h), fun mid tag h => h2.2 mid tag (h1.2 mid tag h)⟩

theorem hasTagB_isSome (st : Models) (mid tag : Nat)
    (h : hasTagB st mid tag = true) : (modelsGet st mid).isSome = true := by
  unfold hasTagB at h
  cases hm : modelsGet st mid with
  | none => rw [hm] at h; cases h
  | some b => simp [hm]

theorem guardCheck_some (st : Models) (mid tag : Nat) (b : BkState)
    (hm : modelsGet st mid = some b) :
    guardCheck st (some (.m mid)) tag = .ok (hasTagB st mid tag) := by
  simp [guardCheck, hasTagB, hm]

theorem resolveModel_spec_none (env : Env) (st st' : Models)
    (o : Option PyObj) :
    resolveModel env st o none = resolveModel env st' o none := by
  cases o with
  | none => rfl
  | some p =>
    cases p with
    | viewable vid =>
      simp only [resolveModel, resolveViewable]
      cases env.viewableModels vid <;> rfl
    | hvPane vid =>
      simp only [resolveModel, resolveViewable]
      cases env.viewableModels vid <;> rfl
    | bkModel mid => rfl
    | hvPlot pid =>
      simp only [resolveModel]
      cases env.hvActive <;> rfl
    | paramObj pid => rfl
    | lit n => rfl

theorem any_alSet_extend (d : List (String × List CJS)) (ch : String)
    (cb : CJS) (p : CJS → Bool)
    (h : d.any (fun kv => kv.2.any p) = true) :
    (alSet d ch (((d.lookup ch).getD []) ++ [cb])).any
      (fun kv => kv.2.any p) = true := by
  induction d with
  | nil => cases h
  | cons kv rest ih =>
    obtain ⟨kk, cbs⟩ := kv
    by_cases hk : kk = ch
    · subst hk
      simp only [alSet, beq_self_eq_true, if_true, List.lookup]
      simp only [List.any_cons, Bool.or_eq_true] at h
      simp only [List.any_cons, Bool.or_eq_true]
      rcases h with h1 | h2
      · left
        simp only [Option.getD_some, List.any_append, Bool.or_eq_true]
        left
        exact h1
      · right
        exact h2
    · have hck : ¬(ch = kk) := fun hh => hk hh.symm
      rw [show alSet ((kk, cbs) :: rest) ch
            (((List.lookup ch ((kk, cbs) :: rest)).getD []) ++ [cb])
          = (kk, cbs) :: alSet rest ch
            (((List.lookup ch ((kk, cbs) :: rest)).getD []) ++ [cb]) by
        simp [alSet, beqF hk]]
      rw [show List.lookup ch ((kk, cbs) :: rest) = List.lookup ch rest by
        simp [List.lookup, beqF hck]]
      simp only [List.any_cons, Bool.or_eq_true] at h
      simp only [List.any_cons, Bool.or_eq_true]
      rcases h with h1 | h2
      · exact Or.inl h1
      · exact Or.inr (ih h2)

theorem alSet_mem_self {K V : Type} [BEq K] [LawfulBEq K]
    (d : List (K × V)) (k : K) (v : V) : (k, v) ∈ alSet d k v := by
  induction d with
  | nil => simp [alSet]
  | cons kv rest ih =>
    by_cases h : kv.1 = k
    · simp [alSet, beqT h]
    · simp only [alSet, beqF h, if_false]
      exact List.mem_cons_of_mem _ ih

theorem setAttr_tagLe (st : Models) (a : AttrVal) (s : String)
    (v : AttrVal) (st' : Models) (h : setAttr st a s v = .ok st') :
    TagLe st st' := by
  unfold setAttr at h
  cases a with
  | v n => cases h
  | m mid =>
    dsimp only at h
    cases hm : modelsGet st mid with
    | none => rw [hm] at h; cases h
    | some b =>
      rw [hm] at h
      dsimp only at h
      injection h with h
      subst h
      constructor
      · intro mid' hs
        simp only [modelsGet] at hs ⊢
        by_cases he : mid' = mid
        · subst he
          rw [alSet_lookup_self st mid' _]
          rfl
        · rw [alSet_lookup_ne st mid mid' _ he]
          exact hs
      · intro mid' tag ht
        unfold hasTagB at ht ⊢
        simp only [modelsGet] at ht ⊢
        by_cases he : mid' = mid
        · subst he
          rw [alSet_lookup_self st mid' _]
          rw [show List.lookup mid' st = some b from hm] at ht
          exact ht
        · rw [alSet_lookup_ne st mid mid' _ he]
          exact ht

theorem jsOnChange_tagLe (st : Models) (mid : Nat) (ch : String)
    (cb : CJS) : TagLe st (jsOnChange st mid ch cb) := by
  unfold jsOnChange
  cases hm : modelsGet st mid with
  | none =>
    dsimp only
    exact TagLe_refl st
  | some b =>
    dsimp only
    constructor
    · intro mid' hs
      simp only [modelsGet] at hs ⊢
      by_cases he : mid' = mid
      · subst he
        rw [alSet_lookup_self st mid' _]
        rfl
      · rw [alSet_lookup_ne st mid mid' _ he]
        exact hs
    · intro mid' tag ht
      unfold hasTagB at ht ⊢
      simp only [modelsGet] at ht ⊢
      by_cases he : mid' = mid
      · subst he
        rw [alSet_lookup_self st mid' _]
        rw [show List.lookup mid' st = some b from hm] at ht
        exact any_alSet_extend _ _ _ _ ht
      · rw [alSet_lookup_ne st mid mid' _ he]
        exact ht

theorem jsOnChange_sets_tag (st : Models) (mid : Nat) (ch : String)
    (cb : CJS) (tag : Nat) (htag : cb.tags.contains tag = true)
    (hex : (modelsGet st mid).isSome = true) :
    hasTagB (jsOnChange st mid ch cb) mid tag = true := by
  unfold jsOnChange hasTagB
  cases hm : modelsGet st mid with
  | none => rw [hm] at hex; cases hex
  | some b =>
    dsimp only
    simp only [modelsGet]
    rw [alSet_lookup_self st mid _]
    apply List.any_eq_true.2
    refine ⟨(ch, ((b.jsPropCbs.lookup ch).getD []) ++ [cb]),
      alSet_mem_self _ _ _, ?_⟩
    simp only [List.any_append, Bool.or_eq_true]
    right
    simpa using htag

theorem initializeModelsJSLink_tagLe (st : Models) (link : CBInst)
    (srcm : Option AttrVal) (sl : String) (tgtm : Option AttrVal)
    (tl : Option String) (st' : Models)
    (h : initializeModelsJSLink st link srcm sl tgtm tl = .ok st') :
    TagLe st st' := by
  unfold initializeModelsJSLink at h
  split at h
  · exact absurd h (by simp)
  · rename_i st2 heq
    split at h
    · exact absurd h (by simp)
    · injection h with h
      subst h
      split at heq
      · split at heq
        · split at heq
          · exact absurd heq (by simp)
          · rename_i sa
            split at heq
            · exact absurd heq (by simp)
            · exact setAttr_tagLe st _ _ _ st2 heq
        · injection heq with heq
          exact heq ▸ TagLe_refl st
      · injection heq with heq
        exact heq ▸ TagLe_refl st

theorem initializeModels_tagLe (gk : GenKind) (st : Models) (link : CBInst)
    (srcm : Option AttrVal) (sl : String) (tgtm : Option AttrVal)
    (tl : Option String) (st' : Models)
    (h : initializeModels gk st link srcm sl tgtm tl = .ok st') :
    TagLe st st' := by
  cases gk with
  | jsCallback =>
    injection h with h
    rw [← h]
    exact TagLe_refl st
  | jsLink => exact initializeModelsJSLink_tagLe st link srcm sl tgtm tl st' h

theorem initCallback_shape (env : Env) (gk : GenKind) (link : CBInst)
    (source : PyObj) (ss : SrcSpec) (target : Option PyObj) (ts : TgtSpec)
    (code : Option String) (ov : List (String × PyObj)) (st : Models)
    (r : Except Err Unit) (st' : Models)
    (h : initCallback env gk link source ss target ts code ov st
      = (r, st')) :
    TagLe st st' ∧
    (∀ (u : Unit) (mid : Nat), r = .ok u →
      resolveModel env st (some source) ss.1 = .ok (some (.m mid)) →
      hasTagB st' mid link.instId = true) := by
  unfold initCallback at h
  cases hres : resolveModel env st (some source) ss.1 with
  | error e =>
    try rw [hres] at h
    try dsimp only at h
    obtain ⟨h1, h2⟩ := Prod.mk.injEq .. ▸ h
    refine ⟨h2 ▸ TagLe_refl st, ?_⟩
    intro u mid hu hres2
    try rw [hres] at hres2
    cases hres2
  | ok srcModel =>
    try rw [hres] at h
    try dsimp only at h
    cases hg : guardCheck st srcModel link.instId with
    | error e =>
      try rw [hg] at h
      try dsimp only at h
      obtain ⟨h1, h2⟩ := Prod.mk.injEq .. ▸ h
      refine ⟨h2 ▸ TagLe_refl st, ?_⟩
      intro u mid hu hres2
      rw [← h1] at hu
      exact absurd hu (by simp)
    | ok gb =>
      cases gb with
      | true =>
        try rw [hg] at h
        try dsimp only at h
        obtain ⟨h1, h2⟩ := Prod.mk.injEq .. ▸ h
        refine ⟨h2 ▸ TagLe_refl st, ?_⟩
        intro u mid hu hres2
        try rw [hres] at hres2
        injection hres2 with hres2
        rw [hres2] at hg
        cases hb : modelsGet st mid with
        | none => simp [guardCheck, hb] at hg
        | some b =>
          rw [guardCheck_some st mid link.instId b hb] at hg
          injection hg with hg
          rw [← h2]
          exact hg
      | false =>
        try rw [hg] at h
        try dsimp only at h
        cases srcModel with
        | none =>
          try rw [hb] at h
          try dsimp only at h
          obtain ⟨h1, h2⟩ := Prod.mk.injEq .. ▸ h
          refine ⟨h2 ▸ TagLe_refl st, ?_⟩
          intro u mid hu hres2
          try rw [hres] at hres2
          cases hres2
        | some a =>
          cases a with
          | v n =>
            try rw [hb] at h
            try dsimp only at h
            obtain ⟨h1, h2⟩ := Prod.mk.injEq .. ▸ h
            refine ⟨h2 ▸ TagLe_refl st, ?_⟩
            intro u mid hu hres2
            try rw [hres] at hres2
            injection hres2 with hres2
            cases hres2
          | m srcMid =>
            try rw [hb] at h
            try dsimp only at h
            have hbex : ∃ b, modelsGet st srcMid = some b := by
              cases hbb : modelsGet st srcMid with
              | none => simp [guardCheck, hbb] at hg
              | some b => exact ⟨b, rfl⟩
            obtain ⟨b, hb⟩ := hbex
            cases hT : (if link.requiresTarget then
                resolveModel env st target ts.1
              else .ok none : Except Err (Option AttrVal)) with
            | error e =>
              try rw [hT] at h
              try dsimp only at h
              obtain ⟨h1, h2⟩ := Prod.mk.injEq .. ▸ h
              refine ⟨h2 ▸ TagLe_refl st, ?_⟩
              intro u mid hu hres2
              rw [← h1] at hu
              exact absurd hu (by simp)
            | ok tgtModel =>
              try rw [hT] at h
              try dsimp only at h
              cases hA : addArgRefs env st (dictMerge link.args ov)
                  (tgtRefs (alSet (alSet (initialRefs link) "source"
                    (.attr (.m srcMid))) "cb_obj" (.attr (.m srcMid)))
                    tgtModel) with
              | error e =>
                try rw [hA] at h
                try dsimp only at h
                obtain ⟨h1, h2⟩ := Prod.mk.injEq .. ▸ h
                refine ⟨h2 ▸ TagLe_refl st, ?_⟩
                intro u mid hu hres2
                rw [← h1] at hu
                exact absurd hu (by simp)
              | ok refs3 =>
                try rw [hA] at h
                try dsimp only at h
                cases hM : hvMergeHandles env link source target refs3 with
                | error e =>
                  try rw [hM] at h
                  try dsimp only at h
                  obtain ⟨h1, h2⟩ := Prod.mk.injEq .. ▸ h
                  refine ⟨h2 ▸ TagLe_refl st, ?_⟩
                  intro u mid hu hres2
                  rw [← h1] at hu
                  exact absurd hu (by simp)
                | ok refs4 =>
                  try rw [hM] at h
                  try dsimp only at h
                  cases hI : initializeModels gk st link
                      (some (.m srcMid)) ss.2 tgtModel ts.2 with
                  | error e =>
                    try rw [hI] at h
                    try dsimp only at h
                    obtain ⟨h1, h2⟩ := Prod.mk.injEq .. ▸ h
                    refine ⟨h2 ▸ TagLe_refl st, ?_⟩
                    intro u mid hu hres2
                    rw [← h1] at hu
                    exact absurd hu (by simp)
                  | ok st1 =>
                    try rw [hI] at h
                    try dsimp only at h
                    have hle1 : TagLe st st1 :=
                      initializeModels_tagLe gk st link _ _ _ _ st1 hI
                    cases hC : codeOf gk code ss.2 ts.2 with
                    | error e =>
                      try rw [hC] at h
                      try dsimp only at h
                      obtain ⟨h1, h2⟩ := Prod.mk.injEq .. ▸ h
                      refine ⟨h2 ▸ hle1, ?_⟩
                      intro u mid hu hres2
                      rw [← h1] at hu
                      exact absurd hu (by simp)
                    | ok cd =>
                      try rw [hC] at h
                      simp only [getTriggers, List.foldl_cons,
                        List.foldl_nil] at h
                      obtain ⟨h1, h2⟩ := Prod.mk.injEq .. ▸ h
                      refine ⟨h2 ▸ TagLe_trans hle1
                        (jsOnChange_tagLe st1 srcMid ss.2 _), ?_⟩
                      intro u mid hu hres2
                      try rw [hres] at hres2
                      injection hres2 with hres2
                      injection hres2 with hres2
                      injection hres2 with hres2
                      rw [← hres2, ← h2]
                      apply jsOnChange_sets_tag st1 srcMid ss.2 _
                        link.instId (by simp [List.contains])
                      apply hle1.1
                      rw [hb]
                      rfl

theorem initCallback_ok_srcModel (env : Env) (gk : GenKind) (link : CBInst)
    (source : PyObj) (ss : SrcSpec) (target : Option PyObj) (ts : TgtSpec)
    (code : Option String) (ov : List (String × PyObj)) (st st' : Models)
    (u : Unit)
    (h : initCallback env gk link source ss target ts code ov st
      = (.ok u, st')) :
    ∃ mid : Nat, resolveModel env st (some source) ss.1
      = .ok (some (.m mid)) := by
  unfold initCallback at h
  cases hres : resolveModel env st (some source) ss.1 with
  | error e =>
    try rw [hres] at h
    try dsimp only at h
    exact absurd (Prod.mk.injEq .. ▸ h).1 (by simp)
  | ok srcModel =>
    try rw [hres] at h
    try dsimp only at h
    cases srcModel with
    | none =>
      simp only [guardCheck] at h
      try dsimp only at h
      exact absurd (Prod.mk.injEq .. ▸ h).1 (by simp)
    | some a =>
      cases a with
      | v n =>
        simp only [guardCheck] at h
        try dsimp only at h
        exact absurd (Prod.mk.injEq .. ▸ h).1 (by simp)
      | m mid => exact ⟨mid, by first | rfl | exact hres⟩

theorem initCallback_replay (env : Env) (gk : GenKind) (link : CBInst)
    (source : PyObj) (ss : SrcSpec) (target : Option PyObj) (ts : TgtSpec)
    (code : Option String) (ov : List (String × PyObj)) (st st' t : Models)
    (u : Unit)
    (hs : ss.1 = none)
    (h : initCallback env gk link source ss target ts code ov st
      = (.ok u, st'))
    (ht : TagLe st' t) :
    initCallback env gk link source ss target ts code ov t
      = (.ok (), t) := by
  obtain ⟨mid, hres⟩ := initCallback_ok_srcModel env gk link source ss target
    ts code ov st st' u h
  have hsh := initCallback_shape env gk link source ss target ts code ov st
    (.ok u) st' h
  have htag : hasTagB st' mid link.instId = true := hsh.2 u mid rfl hres
  have htag2 : hasTagB t mid link.instId = true := ht.2 mid link.instId htag
  have hres2 : resolveModel env t (some source) ss.1
      = .ok (some (.m mid)) := by
    rw [hs] at hres ⊢
    rw [resolveModel_spec_none env t st (some source)]
    exact hres
  obtain ⟨b, hbt⟩ : ∃ b, modelsGet t mid = some b := by
    have hiso := hasTagB_isSome t mid link.instId htag2
    cases hbb : modelsGet t mid with
    | none => rw [hbb] at hiso; cases hiso
    | some b => exact ⟨b, rfl⟩
  unfold initCallback
  dsimp only
  rw [hres2]
  dsimp only
  rw [guardCheck_some t mid link.instId b hbt, htag2]

theorem runSpecs_tagLe (env : Env) (gk : GenKind) (link : CBInst)
    (source : PyObj) (target : Option PyObj) (ov : List (String × PyObj))
    (specs : List SpecTriple) (st : Models) (r : Except Err Unit)
    (st' : Models)
    (h : runSpecs env gk link source target ov specs st = (r, st')) :
    TagLe st st' := by
  induction specs generalizing st r st' with
  | nil =>
    simp only [runSpecs] at h
    exact (Prod.mk.injEq .. ▸ h).2 ▸ TagLe_refl st
  | cons sp rest ih =>
    obtain ⟨ss, ts, c⟩ := sp
    simp only [runSpecs] at h
    cases hic : initCallback env gk link source ss target ts c ov st with
    | mk r1 st1 =>
      try rw [hic] at h
      have hle1 : TagLe st st1 := (initCallback_shape env gk link source ss
        target ts c ov st r1 st1 hic).1
      cases r1 with
      | error e =>
        try dsimp only at h
        exact (Prod.mk.injEq .. ▸ h).2 ▸ hle1
      | ok u1 =>
        try dsimp only at h
        exact TagLe_trans hle1 (ih st1 r st' h)

theorem runSpecs_replay (env : Env) (gk : GenKind) (link : CBInst)
    (source : PyObj) (target : Option PyObj) (ov : List (String × PyObj))
    (specs : List SpecTriple) (st' t : Models) (u : Unit)
    (ht : TagLe st' t) (st : Models)
    (hdf : ∀ sp ∈ specs, sp.1.1 = (none : Option String))
    (h : runSpecs env gk link source target ov specs st = (.ok u, st')) :
    runSpecs env gk link source target ov specs t = (.ok (), t) := by
  induction specs generalizing st with
  | nil => simp [runSpecs]
  | cons sp rest ih =>
    obtain ⟨ss, ts, c⟩ := sp
    simp only [runSpecs] at h ⊢
    cases hic : initCallback env gk link source ss target ts c ov st with
    | mk r1 st1 =>
      try rw [hic] at h
      cases r1 with
      | error e =>
        try dsimp only at h
        exact absurd (Prod.mk.injEq .. ▸ h).1 (by simp)
      | ok u1 =>
        try dsimp only at h
        have hle : TagLe st1 st' := runSpecs_tagLe env gk link source target
          ov rest st1 (.ok u) st' h
        have hrep := initCallback_replay env gk link source ss target ts c ov
          st st1 t u1 (hdf (ss, ts, c) (List.mem_cons_self _ _)) hic
          (TagLe_trans hle ht)
        rw [hrep]
        try dsimp only
        exact ih st1 (fun sp hsp => hdf sp (List.mem_cons_of_mem _ hsp)) h

theorem mkSrcSpec_single (env : Env) (source : PyObj) (s : String)
    (h : (splitDots s == [s]) = true) : (mkSrcSpec env source s).1 = none := by
  have h' : splitDots s = [s] := eq_of_beq h
  simp [mkSrcSpec, h']

theorem foldl_some_mem {α β : Type} (g : α → β) (l : List α)
    (acc : Option β) (y : β)
    (h : l.foldl (fun _ kv => some (g kv)) acc = some y) :
    (∃ kv ∈ l, y = g kv) ∨ acc = some y := by
  induction l generalizing acc with
  | nil => exact Or.inr h
  | cons x xs ih =>
    simp only [List.foldl_cons] at h
    rcases ih (some (g x)) h with h1 | h2
    · obtain ⟨kv, hkv, hy⟩ := h1
      exact Or.inl ⟨kv, List.mem_cons_of_mem _ hkv, hy⟩
    · refine Or.inl ⟨x, List.mem_cons_self _ _, ?_⟩
      injection h2 with h3
      exact h3.symm

theorem getSpecsCode_src_none (env : Env) (source : PyObj)
    (c : List (String × String)) (specs : List SpecTriple)
    (hdf : ∀ kv ∈ c, (splitDots kv.1 == [kv.1]) = true)
    (h : getSpecsCode env source c = .ok specs) :
    ∀ sp ∈ specs, sp.1.1 = (none : Option String) := by
  unfold getSpecsCode at h
  cases hf : c.foldl (fun _ kv => some (mkSrcSpec env source kv.1, kv.2))
      none with
  | none => rw [hf] at h; cases h
  | some pr =>
    obtain ⟨sp0, cc⟩ := pr
    rw [hf] at h
    dsimp only at h
    injection h with h
    intro sp hsp
    rw [← h] at hsp
    simp only [List.mem_singleton] at hsp
    rcases foldl_some_mem _ c none (sp0, cc) hf with h1 | h2
    · obtain ⟨kv, hkv, hy⟩ := h1
      have hsp0 : sp0 = mkSrcSpec env source kv.1 := (Prod.mk.injEq .. ▸ hy).1
      rw [hsp, hsp0]
      exact mkSrcSpec_single env source kv.1 (hdf kv hkv)
    · cases h2

theorem getSpecs_src_none (env : Env) (gk : GenKind) (link : CBInst)
    (source : PyObj) (target : Option PyObj) (specs : List SpecTriple)
    (hdf : dotFreeLink link = true)
    (h : getSpecs env gk link source target = .ok specs) :
    ∀ sp ∈ specs, sp.1.1 = (none : Option String) := by
  have hdf' := hdf
  simp only [dotFreeLink, Bool.and_eq_true] at hdf'
  obtain ⟨h1, h2⟩ := hdf'
  have hprops : ∀ kv ∈ link.properties, (splitDots kv.1 == [kv.1]) = true :=
    fun kv hkv => List.all_eq_true.1 h1 kv hkv
  have hcode : ∀ c, link.code = some c →
      ∀ kv ∈ c, (splitDots kv.1 == [kv.1]) = true := by
    intro c hc kv hkv
    rw [hc] at h2
    dsimp only at h2
    exact List.all_eq_true.1 h2 kv hkv
  cases gk with
  | jsCallback =>
    unfold getSpecs at h
    cases hc : link.code with
    | none => rw [hc] at h; cases h
    | some c =>
      rw [hc] at h
      dsimp only at h
      exact getSpecsCode_src_none env source c specs (hcode c hc) h
  | jsLink =>
    unfold getSpecs getSpecsLink at h
    cases hc : link.code with
    | none =>
      rw [hc] at h
      dsimp only at h
      injection h with h
      intro sp hsp
      rw [← h] at hsp
      obtain ⟨kv, hkv, hsp⟩ := List.mem_map.1 hsp
      rw [← hsp]
      exact mkSrcSpec_single env source kv.1 (hprops kv hkv)
    | some c =>
      rw [hc] at h
      dsimp only at h
      cases hce : c.isEmpty with
      | true =>
        rw [hce, if_pos rfl] at h
        injection h with h
        intro sp hsp
        rw [← h] at hsp
        obtain ⟨kv, hkv, hsp⟩ := List.mem_map.1 hsp
        rw [← hsp]
        exact mkSrcSpec_single env source kv.1 (hprops kv hkv)
      | false =>
        rw [hce, if_neg (by simp)] at h
        exact getSpecsCode_src_none env source c specs (hcode c hc) h

theorem runGenerator_tagLe (env : Env) (gk : GenKind) (link : CBInst)
    (source : PyObj) (target : Option PyObj) (ov : List (String × PyObj))
    (st : Models) (r : Except Err Unit) (st' : Models)
    (h : runGenerator env gk link source target ov st = (r, st')) :
    TagLe st st' := by
  unfold runGenerator at h
  cases hs : getSpecs env gk link source target with
  | error e =>
    try rw [hs] at h
    try dsimp only at h
    exact (Prod.mk.injEq .. ▸ h).2 ▸ TagLe_refl st
  | ok specs =>
    try rw [hs] at h
    try dsimp only at h
    exact runSpecs_tagLe env gk link source target ov specs st r st' h

theorem runGenerator_replay (env : Env) (gk : GenKind) (link : CBInst)
    (source : PyObj) (target : Option PyObj) (ov : List (String × PyObj))
    (st st' t : Models) (u : Unit)
    (hdf : dotFreeLink link = true)
    (h : runGenerator env gk link source target ov st = (.ok u, st'))
    (ht : TagLe st' t) :
    runGenerator env gk link source target ov t = (.ok (), t) := by
  unfold runGenerator at h ⊢
  cases hs : getSpecs env gk link source target with
  | error e =>
    try rw [hs] at h
    try dsimp only at h
    exact absurd (Prod.mk.injEq .. ▸ h).1 (by simp)
  | ok specs =>
    try rw [hs] at h
    try dsimp only at h
    try dsimp only
    exact runSpecs_replay env gk link source target ov specs st' t u ht st
      (getSpecs_src_none env gk link source target specs hdf hs) h

theorem runTriples_tagLe (env : Env) (ovs : List (Nat × List (String × PyObj)))
    (triples : List Triple) (st : Models) (r : Except Err (List Unit))
    (st' : Models)
    (h : runTriples env ovs triples st = (r, st')) :
    TagLe st st' := by
  induction triples generalizing st r st' with
  | nil =>
    simp only [runTriples] at h
    exact (Prod.mk.injEq .. ▸ h).2 ▸ TagLe_refl st
  | cons tr rest ih =>
    simp only [runTriples] at h
    cases hcg : env.cbGen tr.link.cbType with
    | none =>
      try rw [hcg] at h
      try dsimp only at h
      exact (Prod.mk.injEq .. ▸ h).2 ▸ TagLe_refl st
    | some gk =>
      try rw [hcg] at h
      try dsimp only at h
      cases hb : tr.link.requiresTarget && tr.tgt == none with
      | true =>
        rw [hb, if_pos rfl] at h
        exact ih st r st' h
      | false =>
        rw [hb, if_neg (by simp)] at h
        cases hg : runGenerator env gk tr.link tr.src tr.tgt
            (ovFor ovs tr.link.instId) st with
        | mk r1 st1 =>
          try rw [hg] at h
          have hle1 : TagLe st st1 := runGenerator_tagLe env gk tr.link tr.src
            tr.tgt (ovFor ovs tr.link.instId) st r1 st1 hg
          cases r1 with
          | error e =>
            try dsimp only at h
            exact (Prod.mk.injEq .. ▸ h).2 ▸ hle1
          | ok u1 =>
            try dsimp only at h
            cases hrt : runTriples env ovs rest st1 with
            | mk r2 st2 =>
              try rw [hrt] at h
              have hle2 : TagLe st1 st2 := ih st1 r2 st2 hrt
              cases r2 with
              | error e =>
                try dsimp only at h
                exact (Prod.mk.injEq .. ▸ h).2 ▸ TagLe_trans hle1 hle2
              | ok us2 =>
                try dsimp only at h
                exact (Prod.mk.injEq .. ▸ h).2 ▸ TagLe_trans hle1 hle2

theorem runTriples_replay (env : Env)
    (ovs : List (Nat × List (String × PyObj))) (triples : List Triple)
    (st' t : Models) (ht : TagLe st' t) (st : Models) (us : List Unit)
    (hdf : ∀ tr ∈ triples, dotFreeLink tr.link = true)
    (h : runTriples env ovs triples st = (.ok us, st')) :
    runTriples env ovs triples t = (.ok us, t) := by
  induction triples generalizing st us with
  | nil =>
    simp only [runTriples] at h ⊢
    have h1 := (Prod.mk.injEq .. ▸ h).1
    injection h1 with h1
    rw [← h1]
  | cons tr rest ih =>
    simp only [runTriples] at h ⊢
    cases hcg : env.cbGen tr.link.cbType with
    | none =>
      try rw [hcg] at h
      try dsimp only at h
      exact absurd (Prod.mk.injEq .. ▸ h).1 (by simp)
    | some gk =>
      try rw [hcg] at h
      try dsimp only at h
      try dsimp only
      cases hb : tr.link.requiresTarget && tr.tgt == none with
      | true =>
        try rw [hb] at h
        rw [if_pos rfl] at h ⊢
        exact ih st us (fun x hx => hdf x (List.mem_cons_of_mem _ hx)) h
      | false =>
        try rw [hb] at h
        rw [if_neg (by simp)] at h ⊢
        cases hg : runGenerator env gk tr.link tr.src tr.tgt
            (ovFor ovs tr.link.instId) st with
        | mk r1 st1 =>
          try rw [hg] at h
          cases r1 with
          | error e =>
            try dsimp only at h
            exact absurd (Prod.mk.injEq .. ▸ h).1 (by simp)
          | ok u1 =>
            try dsimp only at h
            cases hrt : runTriples env ovs rest st1 with
            | mk r2 st2 =>
              try rw [hrt] at h
              cases r2 with
              | error e =>
                try dsimp only at h
                exact absurd (Prod.mk.injEq .. ▸ h).1 (by simp)
              | ok us2 =>
                try dsimp only at h
                obtain ⟨h1, h2⟩ := Prod.mk.injEq .. ▸ h
                injection h1 with h1
                have hle2 : TagLe st1 st' :=
                  h2 ▸ runTriples_tagLe env ovs rest st1 (.ok us2) st2 hrt
                have hrep := runGenerator_replay env gk tr.link tr.src tr.tgt
                  (ovFor ovs tr.link.instId) st st1 t u1
                  (hdf tr (List.mem_cons_self _ _)) hg (TagLe_trans hle2 ht)
                rw [hrep]
                try dsimp only
                have htail := ih st1 us2
                  (fun x hx => hdf x (List.mem_cons_of_mem _ hx))
                  (h2 ▸ hrt)
                rw [htail]
                try dsimp only
                rw [← h1]

theorem selectLinks_link_mem (linkable : List PyObj) (src : PyObj)
    (links : List CBInst) (ts : List Triple)
    (h : selectLinks linkable src links = .ok ts) :
    ∀ tr ∈ ts, tr.link ∈ links := by
  induction links generalizing ts with
  | nil =>
    simp only [selectLinks] at h
    injection h with h
    intro tr htr
    rw [← h] at htr
    cases htr
  | cons l rest ih =>
    simp only [selectLinks] at h
    cases hrt : l.requiresTarget with
    | true =>
      try rw [hrt] at h
      try rw [if_pos rfl] at h
      try dsimp only at h
      cases hgt : getTarget l with
      | error e =>
        try rw [hgt] at h
        try dsimp only at h
        cases h
      | ok t0 =>
        try rw [hgt] at h
        try dsimp only at h
        cases hsl : selectLinks linkable src rest with
        | error e =>
          try rw [hsl] at h
          try dsimp only at h
          cases h
        | ok ts0 =>
          try rw [hsl] at h
          try dsimp only at h
          injection h with h
          intro tr htr
          rw [← h] at htr
          cases hom : optMem t0 linkable with
          | true =>
            rw [hom, if_pos rfl] at htr
            rcases List.mem_cons.1 htr with h1 | h1
            · rw [h1]; exact List.mem_cons_self _ _
            · exact List.mem_cons_of_mem _ (ih ts0 hsl tr h1)
          | false =>
            rw [hom, if_neg (by simp)] at htr
            exact List.mem_cons_of_mem _ (ih ts0 hsl tr htr)
    | false =>
      try rw [hrt] at h
      try rw [if_neg (by simp)] at h
      try dsimp only at h
      cases hsl : selectLinks linkable src rest with
      | error e =>
        try rw [hsl] at h
        try dsimp only at h
        cases h
      | ok ts0 =>
        try rw [hsl] at h
        try dsimp only at h
        injection h with h
        intro tr htr
        rw [← h] at htr
        try rw [if_pos rfl] at htr
        rcases List.mem_cons.1 htr with h1 | h1
        · rw [h1]; exact List.mem_cons_self _ _
        · exact List.mem_cons_of_mem _ (ih ts0 hsl tr h1)

theorem foundTriples_link_mem (reg : Registry) (linkable : List PyObj)
    (srcs : List PyObj) (ts : List Triple)
    (h : foundTriples reg linkable srcs = .ok ts) :
    ∀ tr ∈ ts, ∃ src ∈ srcs, tr.link ∈ regGetD reg src := by
  induction srcs generalizing ts with
  | nil =>
    simp only [foundTriples] at h
    injection h with h
    intro tr htr
    rw [← h] at htr
    cases htr
  | cons src rest ih =>
    simp only [foundTriples] at h
    cases hsl : selectLinks linkable src (regGetD reg src) with
    | error e =>
      try rw [hsl] at h
      try dsimp only at h
      cases h
    | ok ts1 =>
      try rw [hsl] at h
      try dsimp only at h
      cases hft : foundTriples reg linkable rest with
      | error e =>
        try rw [hft] at h
        try dsimp only at h
        cases h
      | ok ts2 =>
        try rw [hft] at h
        try dsimp only at h
        injection h with h
        intro tr htr
        rw [← h] at htr
        rcases List.mem_append.1 htr with h1 | h1
        · exact ⟨src, List.mem_cons_self _ _,
            selectLinks_link_mem linkable src _ ts1 hsl tr h1⟩
        · obtain ⟨s, hs, hl⟩ := ih ts2 hft tr h1
          exact ⟨s, List.mem_cons_of_mem _ hs, hl⟩

theorem hvExtrasFor_link (env : Env) (link : CBInst) (src : PyObj)
    (tr : Triple) (h : tr ∈ hvExtrasFor env link src) : tr.link = link := by
  unfold hvExtrasFor at h
  cases hta : link.hasTargetAttr with
  | false =>
    rw [hta, if_neg (by simp)] at h
    cases h
  | true =>
    rw [hta, if_pos rfl] at h
    obtain ⟨x, hx, hxe⟩ := List.mem_map.1 h
    rw [← hxe]

theorem hvInner_link_mem (env : Env) (src : PyObj) (links : List CBInst)
    (acc : List Triple × List (Nat × List (String × PyObj))) (tr : Triple)
    (h : tr ∈ (links.foldl (fun acc' link =>
        (acc'.1 ++ hvExtrasFor env link src,
         alSet acc'.2 link.instId (hvOverridesFor env link))) acc).1) :
    tr ∈ acc.1 ∨ tr.link ∈ links := by
  induction links generalizing acc with
  | nil => exact Or.inl h
  | cons l rest ih =>
    simp only [List.foldl_cons] at h
    rcases ih _ h with h1 | h1
    · rcases List.mem_append.1 h1 with h2 | h2
      · exact Or.inl h2
      · refine Or.inr ?_
        rw [hvExtrasFor_link env l src tr h2]
        exact List.mem_cons_self _ _
    · exact Or.inr (List.mem_cons_of_mem _ h1)

theorem hvOuter_link_mem (env : Env) (reg : Registry)
    (srcs : List PyObj)
    (acc : List Triple × List (Nat × List (String × PyObj))) (tr : Triple)
    (h : tr ∈ (srcs.foldl (fun a src =>
        (regGetD reg src).foldl (fun acc' link =>
          (acc'.1 ++ hvExtrasFor env link src,
           alSet acc'.2 link.instId (hvOverridesFor env link))) a) acc).1) :
    tr ∈ acc.1 ∨ ∃ src ∈ srcs, tr.link ∈ regGetD reg src := by
  induction srcs generalizing acc with
  | nil => exact Or.inl h
  | cons s rest ih =>
    simp only [List.foldl_cons] at h
    rcases ih _ h with h1 | h1
    · rcases hvInner_link_mem env s (regGetD reg s) acc tr h1 with h3 | h3
      · exact Or.inl h3
      · exact Or.inr ⟨s, List.mem_cons_self _ _, h3⟩
    · obtain ⟨src, hsrc, hl⟩ := h1
      exact Or.inr ⟨src, List.mem_cons_of_mem _ hsrc, hl⟩

theorem hvExpand_link_mem (env : Env) (reg : Registry)
    (linkable : List PyObj) (tr : Triple)
    (h : tr ∈ (hvExpand env reg linkable).1) :
    ∃ src ∈ linkable, tr.link ∈ regGetD reg src := by
  unfold hvExpand at h
  rcases hvOuter_link_mem env reg linkable ([], []) tr h with h1 | h1
  · cases h1
  · exact h1

/-- C3, amended claim: before attaching, the generator checks whether a
property-change callback tagged with the link's identity is already
attached to the resolved source model and skips emission entirely if
so; hence, provided every registered link uses dot-free (single
segment) source property paths — for which source resolution does not
read the mutable model state — a second run of the resolution pass on
the same root view and root model with no registry change in between
succeeds with the same result and attaches nothing: the state is
unchanged.  (For dotted source paths the unrestricted claim fails, see
the counterexample.) -/
theorem resolution_pass_idempotent (env : Env) (rm : Option Nat)
    (ps ps1 : PState) (r : Option (List Unit))
    (hdf : ∀ src ∈ env.viewSelect ++ env.modelSelect,
      ∀ l ∈ regGetD ps.registry src, dotFreeLink l = true)
    (h : processCallbacks env rm ps = (.ok r, ps1)) :
    processCallbacks env rm ps1 = (.ok r, ps1) := by
  cases rm with
  | none =>
    unfold processCallbacks at h ⊢
    obtain ⟨h1, h2⟩ := Prod.mk.injEq .. ▸ h
    injection h1 with h1
    rw [← h1]
  | some n =>
    unfold processCallbacks at h ⊢
    dsimp only at h ⊢
    cases hL : (env.viewSelect ++ env.modelSelect).isEmpty with
    | true =>
      try rw [hL] at h
      rw [if_pos rfl] at h ⊢
      obtain ⟨h1, h2⟩ := Prod.mk.injEq .. ▸ h
      injection h1 with h1
      rw [← h1]
    | false =>
      try rw [hL] at h
      rw [if_neg (by simp)] at h ⊢
      cases hF : foundTriples ps.registry (env.viewSelect ++ env.modelSelect)
          (env.viewSelect ++ env.modelSelect) with
      | error e =>
        try rw [hF] at h
        try dsimp only at h
        exact absurd (Prod.mk.injEq .. ▸ h).1 (by simp)
      | ok found =>
        try rw [hF] at h
        try dsimp only at h
        cases hHV : env.hvActive with
        | true =>
          try rw [hHV] at h
          try rw [if_pos rfl] at h
          try dsimp only at h
          cases hR : runTriples env
              (hvExpand env ps.registry (env.viewSelect ++ env.modelSelect)).2
              (found ++ (hvExpand env ps.registry
                (env.viewSelect ++ env.modelSelect)).1) ps.models with
          | mk rr st2 =>
            try rw [hR] at h
            cases rr with
            | error e =>
              try dsimp only at h
              exact absurd (Prod.mk.injEq .. ▸ h).1 (by simp)
            | ok us =>
              try dsimp only at h
              obtain ⟨h1, h2⟩ := Prod.mk.injEq .. ▸ h
              injection h1 with h1
              have hdft : ∀ tr ∈ found ++ (hvExpand env ps.registry
                  (env.viewSelect ++ env.modelSelect)).1,
                  dotFreeLink tr.link = true := by
                intro tr htr
                rcases List.mem_append.1 htr with h3 | h3
                · obtain ⟨src, hsrc, hl⟩ := foundTriples_link_mem ps.registry
                    _ _ found hF tr h3
                  exact hdf src hsrc tr.link hl
                · obtain ⟨src, hsrc, hl⟩ := hvExpand_link_mem env ps.registry
                    _ tr h3
                  exact hdf src hsrc tr.link hl
              have hrep := runTriples_replay env
                (hvExpand env ps.registry (env.viewSelect ++ env.modelSelect)).2
                (found ++ (hvExpand env ps.registry
                  (env.viewSelect ++ env.modelSelect)).1)
                st2 st2 (TagLe_refl st2) ps.models us hdft hR
              rw [← h2]
              try dsimp only
              rw [hF]
              try dsimp only
              try rw [if_pos rfl]
              try dsimp only
              rw [hrep]
              try dsimp only
              rw [← h1]
        | false =>
          try rw [hHV] at h
          try rw [if_neg (by simp)] at h
          try dsimp only at h
          cases hR : runTriples env ([] : List (Nat × List (String × PyObj)))
              found ps.models with
          | mk rr st2 =>
            try rw [hR] at h
            cases rr with
            | error e =>
              try dsimp only at h
              exact absurd (Prod.mk.injEq .. ▸ h).1 (by simp)
            | ok us =>
              try dsimp only at h
              obtain ⟨h1, h2⟩ := Prod.mk.injEq .. ▸ h
              injection h1 with h1
              have hdft : ∀ tr ∈ found, dotFreeLink tr.link = true := by
                intro tr htr
                obtain ⟨src, hsrc, hl⟩ := foundTriples_link_mem ps.registry
                  _ _ found hF tr htr
                exact hdf src hsrc tr.link hl
              have hrep := runTriples_replay env
                ([] : List (Nat × List (String × PyObj))) found
                st2 st2 (TagLe_refl st2) ps.models us hdft hR
              rw [← h2]
              try dsimp only
              rw [hF]
              try dsimp only
              try rw [if_neg (by simp)]
              try dsimp only
              rw [hrep]
              try dsimp only
              rw [← h1]

theorem resolution_pass_idempotent_witness :
    (∀ src ∈ envC3.viewSelect ++ envC3.modelSelect,
      ∀ l ∈ regGetD psC3.registry src, dotFreeLink l = true) ∧
    processCallbacks envC3 (some 0) psC31 = (.ok (some [()]), psC31) :=
  ⟨by decide, resolution_pass_idempotent envC3 (some 0) psC3 psC31
    (some [()]) (by decide) (by rfl)⟩

/-- C3, counterexample to the original claim: with a dotted source
property path, running the resolution pass twice with no registry
change in between attaches an additional listener the second time.  The
first pass's `_initialize_models` setattr replaces the attribute the
dotted source prefix drills through, so the second pass resolves a
different source model, the deduplication guard finds no tag on it, and
a second callback carrying the link's identity is attached: the number
of listeners tagged with the link grows from 1 to 2 although the
registry never changed between the passes. -/
theorem dotted_source_second_pass_attaches_again :
    processCallbacks envD (some 0) psD = (.ok (some [()]), psD1) ∧
    processCallbacks envD (some 0) psD1 = (.ok (some [()]), psD2) ∧
    psD1.registry = psD.registry ∧ psD2.registry = psD1.registry ∧
    countTagged psD1.models lkD.instId = 1 ∧
    countTagged psD2.models lkD.instId = 2 :=
  ⟨rfl, rfl, rfl, rfl, rfl, rfl⟩
